import Mathlib

/-!
Shallow embedding of the Sokoban puzzle engine from `src/main.rs`.

The embedding covers the tile codes, the level decoder
(`MapAssetsLoader::load`), and the game state machine (`Game::step`,
`Game::win`, `Game::update`, the keyboard action recording in
`keyboard_input`, and the level-loading branch of `game_update`).

Machine integers (`usize`) become `ℕ`; the `Vec2` position (whose
coordinates only ever hold small integral values) becomes a pair of `ℤ`;
Rust's saturating float-to-`usize` cast of a possibly negative coordinate
becomes `Int.toNat`.  The grid is a total function `ℕ → ℕ → ℕ` of tile
codes; the game only reads and writes indices below the map size.
Fallible code (the decoder, whose `unwrap`s and slice indexing can
panic) returns `Option`.  The side length is kept as a parameter `N`;
the source fixes `MAP_SIZE = 20`.
-/

namespace Sokoban

/-- Tile code `BLOCK_TYPE_BLANK` (0). -/
def BLOCK_TYPE_BLANK : ℕ := 0

/-- Tile code `BLOCK_TYPE_WALL` (1). -/
def BLOCK_TYPE_WALL : ℕ := 1

/-- Tile code `BLOCK_TYPE_GROUND` (2). -/
def BLOCK_TYPE_GROUND : ℕ := 2

/-- Tile code `BLOCK_TYPE_BOX` (3). -/
def BLOCK_TYPE_BOX : ℕ := 3

/-- Tile code `BLOCK_TYPE_AIM` (4): a target square. -/
def BLOCK_TYPE_AIM : ℕ := 4

/-- Tile code `BLOCK_TYPE_PLAYER_DOWN` (5). -/
def BLOCK_TYPE_PLAYER_DOWN : ℕ := 5

/-- Tile code `BLOCK_TYPE_PLAYER_RIGHT` (6). -/
def BLOCK_TYPE_PLAYER_RIGHT : ℕ := 6

/-- Tile code `BLOCK_TYPE_PLAYER_LEFT` (7). -/
def BLOCK_TYPE_PLAYER_LEFT : ℕ := 7

/-- Tile code `BLOCK_TYPE_PLAYER_UP` (8). -/
def BLOCK_TYPE_PLAYER_UP : ℕ := 8

/-- Tile code `BLOCK_TYPE_BOX_AIM` (9): a box sitting on a target. -/
def BLOCK_TYPE_BOX_AIM : ℕ := 9

/-- The source's `MAP_SIZE` constant (side length of the square grid). -/
def MAP_SIZE : ℕ := 20

/-- The source's `GAME_LEVEL_COUNT` constant. -/
def GAME_LEVEL_COUNT : ℕ := 50

/-- Point update of a two-argument grid function: models the Rust
assignment `m[x][y] = v` on the `[[usize; N]; N]` map. -/
def write2 (m : ℕ → ℕ → ℕ) (x y v : ℕ) : ℕ → ℕ → ℕ :=
  fun a b => if a = x ∧ b = y then v else m a b

/-- The two variants of the source's `GameStatus` enum.
`StartPlaying` is the spec's `AwaitingLevelLoad`, `Playing` is
`InProgress`. -/
inductive GameStatus
  | StartPlaying
  | Playing
deriving DecidableEq, Repr

/-- The four directional actions ever stored in `Game.action`
(`keyboard_input` records only the arrow `KeyCode`s, and `Game::update`
ignores everything else). -/
inductive Direction
  | left
  | right
  | up
  | down
deriving DecidableEq, Repr

/-- The unit vector `Game::update` passes to `Game::step` for each
arrow key. -/
def dirVec : Direction → ℤ × ℤ
  | Direction.left => (-1, 0)
  | Direction.right => (1, 0)
  | Direction.up => (0, 1)
  | Direction.down => (0, -1)

/-- A decoded level, the source's `MapAsset`: the `value` grid of tile
codes and the starting `position`. -/
structure MapAsset where
  value : ℕ → ℕ → ℕ
  position : ℤ × ℤ

/-- The source's `Game` resource.  `update` is the dirty/redraw flag,
`position_type` is the tile kind underneath the player (the spec's
"under-tile"), `action` the pending-action slot. -/
structure Game where
  update : Bool
  level : ℕ
  status : GameStatus
  map : ℕ → ℕ → ℕ
  posx : ℤ
  posy : ℤ
  position_type : ℕ
  action : Option Direction

/-- The source's `Game::default`: dirty, level 1, awaiting level load,
all-blank map, position (0,0), under-tile Ground, no pending action. -/
def Game.default : Game :=
  { update := true
    level := 1
    status := GameStatus.StartPlaying
    map := fun _ _ => BLOCK_TYPE_BLANK
    posx := 0
    posy := 0
    position_type := BLOCK_TYPE_GROUND
    action := none }

/-- The source's `Game::get_player_type`: the directional player tile
drawn for a movement vector (note the source's inverted left/right
convention, preserved verbatim). -/
def getPlayerType (action : ℤ × ℤ) : ℕ :=
  if action = (1, 0) then BLOCK_TYPE_PLAYER_LEFT
  else if action = (-1, 0) then BLOCK_TYPE_PLAYER_RIGHT
  else if action = (0, 1) then BLOCK_TYPE_PLAYER_UP
  else if action = (0, -1) then BLOCK_TYPE_PLAYER_DOWN
  else BLOCK_TYPE_PLAYER_UP

/-- Out-of-bounds test of `Game::step`: the source compares each
coordinate with its clamp into `[0, N-1]`, which fails exactly when the
coordinate is negative or exceeds `N-1`. -/
def oob (N : ℕ) (x y : ℤ) : Bool :=
  x < 0 || (N : ℤ) - 1 < x || y < 0 || (N : ℤ) - 1 < y

/-- The plain-move branch of `Game::step` (target cell Ground or Aim):
the old player cell gets the remembered under-tile, the under-tile
becomes what the target cell held, the target cell gets the directional
player tile, the position advances and the dirty flag is set.  The
writes are sequenced exactly as in the source. -/
def Game.moveInto (g : Game) (action : ℤ × ℤ) (nx ny : ℤ) : Game :=
  let m1 := write2 g.map g.posx.toNat g.posy.toNat g.position_type
  let pt := m1 nx.toNat ny.toNat
  let m2 := write2 m1 nx.toNat ny.toNat (getPlayerType action)
  { g with map := m2, position_type := pt, posx := nx, posy := ny, update := true }

/-- The successful-push branch of `Game::step` (cell ahead holds a box,
landing cell Ground or Aim), with the source's write order: old player
cell reverts to the under-tile, the under-tile becomes Ground for a
plain Box and Aim for a Box-on-target, the box cell gets the
directional player tile, the landing cell gets Box or Box-on-target
according to what it held, the position advances and the dirty flag is
set. -/
def Game.pushInto (g : Game) (action : ℤ × ℤ) (nx ny n2x n2y : ℤ) : Game :=
  let m1 := write2 g.map g.posx.toNat g.posy.toNat g.position_type
  let pt := if m1 nx.toNat ny.toNat = BLOCK_TYPE_BOX then BLOCK_TYPE_GROUND else BLOCK_TYPE_AIM
  let m2 := write2 m1 nx.toNat ny.toNat (getPlayerType action)
  let m3 :=
    if m2 n2x.toNat n2y.toNat = BLOCK_TYPE_GROUND then
      write2 m2 n2x.toNat n2y.toNat BLOCK_TYPE_BOX
    else
      write2 m2 n2x.toNat n2y.toNat BLOCK_TYPE_BOX_AIM
  { g with map := m3, position_type := pt, posx := nx, posy := ny, update := true }

/-- The source's `Game::step`: bounds check, then the plain-move branch,
then (sequentially, re-reading the possibly updated cell as the source
does) the push branch with its own bounds and landing checks. -/
def Game.step (N : ℕ) (g : Game) (action : ℤ × ℤ) : Game :=
  let nx := g.posx + action.1
  let ny := g.posy + action.2
  if oob N nx ny then g
  else
    let g1 :=
      if g.map nx.toNat ny.toNat = BLOCK_TYPE_GROUND ∨
          g.map nx.toNat ny.toNat = BLOCK_TYPE_AIM then
        g.moveInto action nx ny
      else g
    if g1.map nx.toNat ny.toNat = BLOCK_TYPE_BOX ∨
        g1.map nx.toNat ny.toNat = BLOCK_TYPE_BOX_AIM then
      let n2x := nx + action.1
      let n2y := ny + action.2
      if oob N n2x n2y then g1
      else if g1.map n2x.toNat n2y.toNat = BLOCK_TYPE_GROUND ∨
          g1.map n2x.toNat n2y.toNat = BLOCK_TYPE_AIM then
        g1.pushInto action nx ny n2x n2y
      else g1
    else g1

/-- The box scan of `Game::win`: true iff some cell of the `N`-by-`N`
grid holds a plain Box. -/
def Game.hasBox (N : ℕ) (g : Game) : Bool :=
  (List.range N).any fun i => (List.range N).any fun j => g.map i j == BLOCK_TYPE_BOX

/-- The source's `Game::win`: returns false leaving the state untouched
when a plain Box remains; otherwise increments the level (wrapping past
`GAME_LEVEL_COUNT` back to 1), sets the dirty flag, moves the status
back to `StartPlaying` and returns true. -/
def Game.winCheck (N : ℕ) (g : Game) : Bool × Game :=
  if g.hasBox N then (false, g)
  else
    (true,
      { g with
        level := if g.level + 1 > GAME_LEVEL_COUNT then 1 else g.level + 1
        update := true
        status := GameStatus.StartPlaying })

/-- The source's `Game::update` (the spec's `advance`): a no-op when the
status is not `Playing` (the pending action is then left in place);
otherwise the pending action, if any, is fed to `Game::step` as its unit
vector, and the pending action is cleared regardless of outcome. -/
def Game.advance (N : ℕ) (g : Game) : Game :=
  if g.status ≠ GameStatus.Playing then g
  else
    let g2 :=
      match g.action with
      | some d => g.step N (dirVec d)
      | none => g
    { g2 with action := none }

/-- The action recording of `keyboard_input`: `game.action = Some(key)`.
The source records the pressed arrow unconditionally — there is no
status check at the recording site. -/
def queueAction (g : Game) (d : Direction) : Game :=
  { g with action := some d }

/-- The successful level-loading branch of `game_update` in status
`StartPlaying` (the spec's `initialize`): the function first clears the
dirty flag (`game.update = false`), then installs the decoded grid and
starting position and moves to `Playing`.  It does not touch
`position_type`, `level` or `action`. -/
def initializeGame (g : Game) (lvl : MapAsset) : Game :=
  { g with
    update := false
    map := lvl.value
    posx := lvl.position.1
    posy := lvl.position.2
    status := GameStatus.Playing }

/-- The `Playing` branch of `game_update`: the dirty flag is consumed
and `Game::win` runs (its boolean result only steers rendering). -/
def gameUpdatePlaying (N : ℕ) (g : Game) : Game :=
  (Game.winCheck N { g with update := false }).2

/-- Continuation-byte test of UTF-8 (`0x80 ≤ b ≤ 0xBF`). -/
def isCont (b : ℕ) : Bool := 128 ≤ b && b ≤ 191

/-- One step of strict UTF-8 validation: given a lead byte and the
remaining bytes, consume the lead byte's continuation bytes and return
the suffix, or `none` when the sequence is malformed (overlong forms,
surrogates and code points beyond U+10FFFF are rejected, as Rust's
`String::from_utf8` does). -/
def utf8Step (b : ℕ) (rest : List ℕ) : Option (List ℕ) :=
  if b ≤ 127 then some rest
  else if 194 ≤ b && b ≤ 223 then
    match rest with
    | c1 :: r => if isCont c1 then some r else none
    | [] => none
  else if b = 224 then
    match rest with
    | c1 :: c2 :: r => if (160 ≤ c1 && c1 ≤ 191) && isCont c2 then some r else none
    | _ => none
  else if (225 ≤ b && b ≤ 236) || (238 ≤ b && b ≤ 239) then
    match rest with
    | c1 :: c2 :: r => if isCont c1 && isCont c2 then some r else none
    | _ => none
  else if b = 237 then
    match rest with
    | c1 :: c2 :: r => if (128 ≤ c1 && c1 ≤ 159) && isCont c2 then some r else none
    | _ => none
  else if b = 240 then
    match rest with
    | c1 :: c2 :: c3 :: r =>
      if (144 ≤ c1 && c1 ≤ 191) && isCont c2 && isCont c3 then some r else none
    | _ => none
  else if 241 ≤ b && b ≤ 243 then
    match rest with
    | c1 :: c2 :: c3 :: r => if isCont c1 && isCont c2 && isCont c3 then some r else none
    | _ => none
  else if b = 244 then
    match rest with
    | c1 :: c2 :: c3 :: r =>
      if (128 ≤ c1 && c1 ≤ 143) && isCont c2 && isCont c3 then some r else none
    | _ => none
  else none

/-- Iterated UTF-8 validation with explicit fuel; each step consumes at
least one byte, so fuel equal to the list length (as supplied by
`validUtf8`) never runs out and the `0, _ :: _` clause is
unreachable. -/
def validUtf8Aux : ℕ → List ℕ → Bool
  | _, [] => true
  | 0, _ :: _ => false
  | fuel + 1, b :: rest =>
    match utf8Step b rest with
    | some r => validUtf8Aux fuel r
    | none => false

/-- Strict UTF-8 validity of a byte list: the check performed by Rust's
`String::from_utf8` in `MapAssetsLoader::load`. -/
def validUtf8 (l : List ℕ) : Bool := validUtf8Aux l.length l

/-- Byte-level model of `text.replace("\r\n", "\n")`: every CR directly
followed by LF is dropped, scanning left to right. -/
def replaceCRLF : List ℕ → List ℕ
  | [] => []
  | [b] => [b]
  | a :: b :: rest =>
    if a = 13 ∧ b = 10 then 10 :: replaceCRLF rest
    else a :: replaceCRLF (b :: rest)

/-- Value of `s.parse::<usize>().unwrap_or(0)` for a one-character ASCII
string: the digit's value, or 0 when the character is not a digit. -/
def digitVal (b : ℕ) : ℕ := if 48 ≤ b ∧ b ≤ 57 then b - 48 else 0

/-- Model of `(text[index..(index + 1)]).parse::<usize>().unwrap_or(0)`
on a valid-UTF-8 byte list: `none` models the slice panic, which (in a
valid string) happens exactly when the index is past the end or the
byte there is not ASCII (then either `index` or `index + 1` is not a
character boundary). -/
def sliceParse (text : List ℕ) (index : ℕ) : Option ℕ :=
  match text.get? index with
  | none => none
  | some b => if b ≤ 127 then some (digitVal b) else none

/-- The cell coordinates `(i, j)` visited by the decoder's nested loops,
in source order: `i` (source row) outer, `j` (source column) inner. -/
def cellList (N : ℕ) : List (ℕ × ℕ) :=
  (List.range N).flatMap fun i => (List.range N).map fun j => (i, j)

/-- The body of the decoder's nested loops, iterated over a list of
cells.  For a cell `(i, j)` the byte at offset `i * (N + 1) + j` of the
normalized text is sliced and parsed (defaulting to 0), stored at grid
coordinates `(j, N - i - 1)`, and when the freshly stored cell reads
back as the player-facing-down code the position is set to that cell.
`none` propagates a slice panic. -/
def decodeCells (N : ℕ) (text : List ℕ) :
    List (ℕ × ℕ) → ((ℕ → ℕ → ℕ) × ℤ × ℤ) → Option ((ℕ → ℕ → ℕ) × ℤ × ℤ)
  | [], st => some st
  | c :: rest, st =>
    match sliceParse text (c.1 * (N + 1) + c.2) with
    | none => none
    | some d =>
      let v2 := write2 st.1 c.2 (N - c.1 - 1) d
      let p2 : ℤ × ℤ :=
        if v2 c.2 (N - c.1 - 1) = BLOCK_TYPE_PLAYER_DOWN then
          (((c.2 : ℕ) : ℤ), ((N - c.1 - 1 : ℕ) : ℤ))
        else st.2
      decodeCells N text rest (v2, p2)

/-- The source's `MapAssetsLoader::load` on raw bytes (the spec's
`decode`): `none` models a failure (the `String::from_utf8` unwrap
panic on invalid UTF-8, or a slice panic while sampling a cell);
otherwise the grid starts all zeros, the position at the origin, and
the nested loops fill them in. -/
def decode (N : ℕ) (bytes : List ℕ) : Option MapAsset :=
  if validUtf8 bytes then
    match decodeCells N (replaceCRLF bytes) (cellList N) ((fun _ _ => 0), (0, 0)) with
    | some (v, p) => some { value := v, position := p }
    | none => none
  else none

/-- Boolean test for the two box tile codes. -/
def isBox (v : ℕ) : Bool := v == BLOCK_TYPE_BOX || v == BLOCK_TYPE_BOX_AIM

/-- Boolean test for the four player-facing tile codes. -/
def isPlayerB (v : ℕ) : Bool :=
  v == BLOCK_TYPE_PLAYER_DOWN || v == BLOCK_TYPE_PLAYER_RIGHT ||
  v == BLOCK_TYPE_PLAYER_LEFT || v == BLOCK_TYPE_PLAYER_UP

/-- Number of cells of the `N`-by-`N` grid holding Box or
Box-on-target. -/
def boxCount (N : ℕ) (m : ℕ → ℕ → ℕ) : ℕ :=
  ∑ p ∈ Finset.range N ×ˢ Finset.range N, if isBox (m p.1 p.2) then 1 else 0

/-- A level is well formed when its starting position is a grid cell
and the player-facing cells of its grid are exactly that cell (the
spec's data-model invariant for a decoded level). -/
def WellFormedLevel (N : ℕ) (lvl : MapAsset) : Prop :=
  0 ≤ lvl.position.1 ∧ lvl.position.1 < (N : ℤ) ∧
  0 ≤ lvl.position.2 ∧ lvl.position.2 < (N : ℤ) ∧
  ∀ x < N, ∀ y < N,
    (isPlayerB (lvl.value x y) = true ↔
      x = lvl.position.1.toNat ∧ y = lvl.position.2.toNat)

instance decWellFormedLevel (N : ℕ) (lvl : MapAsset) :
    Decidable (WellFormedLevel N lvl) := by
  unfold WellFormedLevel
  infer_instance

/-- The state invariant maintained by the engine: the under-tile is
always Ground or Aim, and while a level is in progress the position is
a grid cell and the player-facing cells of the grid are exactly the
cell at the position. -/
def Inv (N : ℕ) (g : Game) : Prop :=
  (g.position_type = BLOCK_TYPE_GROUND ∨ g.position_type = BLOCK_TYPE_AIM) ∧
  (g.status = GameStatus.Playing →
    0 ≤ g.posx ∧ g.posx < (N : ℤ) ∧ 0 ≤ g.posy ∧ g.posy < (N : ℤ) ∧
    ∀ x < N, ∀ y < N,
      (isPlayerB (g.map x y) = true ↔ x = g.posx.toNat ∧ y = g.posy.toNat))

/-- Game states reachable by the driver loop of `main.rs`: starting
from `Game::default`, a level load (`game_update` in `StartPlaying`,
with a well-formed level), recording an arrow key (`keyboard_input`),
consuming the pending action (`Game::update`), and the win check of
`game_update` in `Playing`. -/
inductive Reachable (N : ℕ) : Game → Prop
  | base : Reachable N Game.default
  | init {g : Game} {lvl : MapAsset} : Reachable N g →
      g.status = GameStatus.StartPlaying → WellFormedLevel N lvl →
      Reachable N (initializeGame g lvl)
  | queue {g : Game} (d : Direction) : Reachable N g → Reachable N (queueAction g d)
  | adv {g : Game} : Reachable N g → Reachable N (Game.advance N g)
  | winchk {g : Game} : Reachable N g → g.status = GameStatus.Playing →
      Reachable N (gameUpdatePlaying N g)

/-! ### Basic lemmas about the step function -/

theorem write2_self (m : ℕ → ℕ → ℕ) (x y v : ℕ) : write2 m x y v x y = v := by
  simp [write2]

theorem write2_ne (m : ℕ → ℕ → ℕ) (x y v a b : ℕ) (h : ¬(a = x ∧ b = y)) :
    write2 m x y v a b = m a b := by
  simp [write2, h]

theorem getPlayerType_mem (a : ℤ × ℤ) :
    getPlayerType a = 5 ∨ getPlayerType a = 6 ∨ getPlayerType a = 7 ∨ getPlayerType a = 8 := by
  unfold getPlayerType BLOCK_TYPE_PLAYER_LEFT BLOCK_TYPE_PLAYER_RIGHT
    BLOCK_TYPE_PLAYER_UP BLOCK_TYPE_PLAYER_DOWN
  split_ifs <;> simp

theorem step_oob (N : ℕ) (g : Game) (a : ℤ × ℤ)
    (h : oob N (g.posx + a.1) (g.posy + a.2) = true) : g.step N a = g := by
  unfold Game.step
  simp [h]

theorem moveInto_map_next (g : Game) (a : ℤ × ℤ) (nx ny : ℤ) :
    (g.moveInto a nx ny).map nx.toNat ny.toNat = getPlayerType a := by
  simp [Game.moveInto, write2]

theorem step_move (N : ℕ) (g : Game) (a : ℤ × ℤ)
    (hoob : oob N (g.posx + a.1) (g.posy + a.2) = false)
    (hmn : g.map (g.posx + a.1).toNat (g.posy + a.2).toNat = BLOCK_TYPE_GROUND ∨
      g.map (g.posx + a.1).toNat (g.posy + a.2).toNat = BLOCK_TYPE_AIM) :
    g.step N a = g.moveInto a (g.posx + a.1) (g.posy + a.2) := by
  have hplayer := getPlayerType_mem a
  unfold Game.step
  simp only [hoob, Bool.false_eq_true, if_false, if_pos hmn, moveInto_map_next]
  rw [if_neg]
  unfold BLOCK_TYPE_BOX BLOCK_TYPE_BOX_AIM
  omega

theorem step_blocked (N : ℕ) (g : Game) (a : ℤ × ℤ)
    (hoob : oob N (g.posx + a.1) (g.posy + a.2) = false)
    (hmn : g.map (g.posx + a.1).toNat (g.posy + a.2).toNat ≠ BLOCK_TYPE_GROUND ∧
      g.map (g.posx + a.1).toNat (g.posy + a.2).toNat ≠ BLOCK_TYPE_AIM ∧
      g.map (g.posx + a.1).toNat (g.posy + a.2).toNat ≠ BLOCK_TYPE_BOX ∧
      g.map (g.posx + a.1).toNat (g.posy + a.2).toNat ≠ BLOCK_TYPE_BOX_AIM) :
    g.step N a = g := by
  have h1 : ¬(g.map (g.posx + a.1).toNat (g.posy + a.2).toNat = BLOCK_TYPE_GROUND ∨
      g.map (g.posx + a.1).toNat (g.posy + a.2).toNat = BLOCK_TYPE_AIM) := by tauto
  have h2 : ¬(g.map (g.posx + a.1).toNat (g.posy + a.2).toNat = BLOCK_TYPE_BOX ∨
      g.map (g.posx + a.1).toNat (g.posy + a.2).toNat = BLOCK_TYPE_BOX_AIM) := by tauto
  unfold Game.step
  simp only [hoob, Bool.false_eq_true, if_false]
  rw [if_neg h1, if_neg h2]

theorem step_push_oob (N : ℕ) (g : Game) (a : ℤ × ℤ)
    (hoob : oob N (g.posx + a.1) (g.posy + a.2) = false)
    (hmn : g.map (g.posx + a.1).toNat (g.posy + a.2).toNat = BLOCK_TYPE_BOX ∨
      g.map (g.posx + a.1).toNat (g.posy + a.2).toNat = BLOCK_TYPE_BOX_AIM)
    (hoob2 : oob N (g.posx + a.1 + a.1) (g.posy + a.2 + a.2) = true) :
    g.step N a = g := by
  have hne : g.map (g.posx + a.1).toNat (g.posy + a.2).toNat ≠ BLOCK_TYPE_GROUND ∧
      g.map (g.posx + a.1).toNat (g.posy + a.2).toNat ≠ BLOCK_TYPE_AIM := by
    unfold BLOCK_TYPE_BOX BLOCK_TYPE_BOX_AIM at hmn
    unfold BLOCK_TYPE_GROUND BLOCK_TYPE_AIM
    omega
  have h1 : ¬(g.map (g.posx + a.1).toNat (g.posy + a.2).toNat = BLOCK_TYPE_GROUND ∨
      g.map (g.posx + a.1).toNat (g.posy + a.2).toNat = BLOCK_TYPE_AIM) := by tauto
  unfold Game.step
  simp only [hoob, Bool.false_eq_true, if_false]
  rw [if_neg h1, if_pos hmn, if_pos hoob2]

theorem step_push_blocked (N : ℕ) (g : Game) (a : ℤ × ℤ)
    (hoob : oob N (g.posx + a.1) (g.posy + a.2) = false)
    (hmn : g.map (g.posx + a.1).toNat (g.posy + a.2).toNat = BLOCK_TYPE_BOX ∨
      g.map (g.posx + a.1).toNat (g.posy + a.2).toNat = BLOCK_TYPE_BOX_AIM)
    (hoob2 : oob N (g.posx + a.1 + a.1) (g.posy + a.2 + a.2) = false)
    (hm2 : g.map (g.posx + a.1 + a.1).toNat (g.posy + a.2 + a.2).toNat ≠ BLOCK_TYPE_GROUND ∧
      g.map (g.posx + a.1 + a.1).toNat (g.posy + a.2 + a.2).toNat ≠ BLOCK_TYPE_AIM) :
    g.step N a = g := by
  have hne : g.map (g.posx + a.1).toNat (g.posy + a.2).toNat ≠ BLOCK_TYPE_GROUND ∧
      g.map (g.posx + a.1).toNat (g.posy + a.2).toNat ≠ BLOCK_TYPE_AIM := by
    unfold BLOCK_TYPE_BOX BLOCK_TYPE_BOX_AIM at hmn
    unfold BLOCK_TYPE_GROUND BLOCK_TYPE_AIM
    omega
  have h1 : ¬(g.map (g.posx + a.1).toNat (g.posy + a.2).toNat = BLOCK_TYPE_GROUND ∨
      g.map (g.posx + a.1).toNat (g.posy + a.2).toNat = BLOCK_TYPE_AIM) := by tauto
  have h2 : ¬(g.map (g.posx + a.1 + a.1).toNat (g.posy + a.2 + a.2).toNat = BLOCK_TYPE_GROUND ∨
      g.map (g.posx + a.1 + a.1).toNat (g.posy + a.2 + a.2).toNat = BLOCK_TYPE_AIM) := by tauto
  unfold Game.step
  simp only [hoob, hoob2, Bool.false_eq_true, if_false]
  rw [if_neg h1, if_pos hmn, if_neg h2]

theorem step_push (N : ℕ) (g : Game) (a : ℤ × ℤ)
    (hoob : oob N (g.posx + a.1) (g.posy + a.2) = false)
    (hmn : g.map (g.posx + a.1).toNat (g.posy + a.2).toNat = BLOCK_TYPE_BOX ∨
      g.map (g.posx + a.1).toNat (g.posy + a.2).toNat = BLOCK_TYPE_BOX_AIM)
    (hoob2 : oob N (g.posx + a.1 + a.1) (g.posy + a.2 + a.2) = false)
    (hm2 : g.map (g.posx + a.1 + a.1).toNat (g.posy + a.2 + a.2).toNat = BLOCK_TYPE_GROUND ∨
      g.map (g.posx + a.1 + a.1).toNat (g.posy + a.2 + a.2).toNat = BLOCK_TYPE_AIM) :
    g.step N a = g.pushInto a (g.posx + a.1) (g.posy + a.2)
      (g.posx + a.1 + a.1) (g.posy + a.2 + a.2) := by
  have hne : g.map (g.posx + a.1).toNat (g.posy + a.2).toNat ≠ BLOCK_TYPE_GROUND ∧
      g.map (g.posx + a.1).toNat (g.posy + a.2).toNat ≠ BLOCK_TYPE_AIM := by
    unfold BLOCK_TYPE_BOX BLOCK_TYPE_BOX_AIM at hmn
    unfold BLOCK_TYPE_GROUND BLOCK_TYPE_AIM
    omega
  have h1 : ¬(g.map (g.posx + a.1).toNat (g.posy + a.2).toNat = BLOCK_TYPE_GROUND ∨
      g.map (g.posx + a.1).toNat (g.posy + a.2).toNat = BLOCK_TYPE_AIM) := by tauto
  unfold Game.step
  simp only [hoob, hoob2, Bool.false_eq_true, if_false]
  rw [if_neg h1, if_pos hmn, if_pos hm2]

theorem step_cases (N : ℕ) (g : Game) (a : ℤ × ℤ) (P : Game → Prop)
    (case_oob : oob N (g.posx + a.1) (g.posy + a.2) = true → P g)
    (case_move : oob N (g.posx + a.1) (g.posy + a.2) = false →
      (g.map (g.posx + a.1).toNat (g.posy + a.2).toNat = BLOCK_TYPE_GROUND ∨
        g.map (g.posx + a.1).toNat (g.posy + a.2).toNat = BLOCK_TYPE_AIM) →
      P (g.moveInto a (g.posx + a.1) (g.posy + a.2)))
    (case_blocked : oob N (g.posx + a.1) (g.posy + a.2) = false →
      g.map (g.posx + a.1).toNat (g.posy + a.2).toNat ≠ BLOCK_TYPE_GROUND →
      g.map (g.posx + a.1).toNat (g.posy + a.2).toNat ≠ BLOCK_TYPE_AIM →
      g.map (g.posx + a.1).toNat (g.posy + a.2).toNat ≠ BLOCK_TYPE_BOX →
      g.map (g.posx + a.1).toNat (g.posy + a.2).toNat ≠ BLOCK_TYPE_BOX_AIM → P g)
    (case_push_oob : oob N (g.posx + a.1) (g.posy + a.2) = false →
      (g.map (g.posx + a.1).toNat (g.posy + a.2).toNat = BLOCK_TYPE_BOX ∨
        g.map (g.posx + a.1).toNat (g.posy + a.2).toNat = BLOCK_TYPE_BOX_AIM) →
      oob N (g.posx + a.1 + a.1) (g.posy + a.2 + a.2) = true → P g)
    (case_push_blocked : oob N (g.posx + a.1) (g.posy + a.2) = false →
      (g.map (g.posx + a.1).toNat (g.posy + a.2).toNat = BLOCK_TYPE_BOX ∨
        g.map (g.posx + a.1).toNat (g.posy + a.2).toNat = BLOCK_TYPE_BOX_AIM) →
      oob N (g.posx + a.1 + a.1) (g.posy + a.2 + a.2) = false →
      g.map (g.posx + a.1 + a.1).toNat (g.posy + a.2 + a.2).toNat ≠ BLOCK_TYPE_GROUND →
      g.map (g.posx + a.1 + a.1).toNat (g.posy + a.2 + a.2).toNat ≠ BLOCK_TYPE_AIM → P g)
    (case_push : oob N (g.posx + a.1) (g.posy + a.2) = false →
      (g.map (g.posx + a.1).toNat (g.posy + a.2).toNat = BLOCK_TYPE_BOX ∨
        g.map (g.posx + a.1).toNat (g.posy + a.2).toNat = BLOCK_TYPE_BOX_AIM) →
      oob N (g.posx + a.1 + a.1) (g.posy + a.2 + a.2) = false →
      (g.map (g.posx + a.1 + a.1).toNat (g.posy + a.2 + a.2).toNat = BLOCK_TYPE_GROUND ∨
        g.map (g.posx + a.1 + a.1).toNat (g.posy + a.2 + a.2).toNat = BLOCK_TYPE_AIM) →
      P (g.pushInto a (g.posx + a.1) (g.posy + a.2)
        (g.posx + a.1 + a.1) (g.posy + a.2 + a.2))) :
    P (g.step N a) := by
  cases h0 : oob N (g.posx + a.1) (g.posy + a.2) with
  | true => rw [step_oob N g a h0]; exact case_oob h0
  | false =>
    by_cases h1 : g.map (g.posx + a.1).toNat (g.posy + a.2).toNat = BLOCK_TYPE_GROUND ∨
        g.map (g.posx + a.1).toNat (g.posy + a.2).toNat = BLOCK_TYPE_AIM
    · rw [step_move N g a h0 h1]; exact case_move h0 h1
    · by_cases h2 : g.map (g.posx + a.1).toNat (g.posy + a.2).toNat = BLOCK_TYPE_BOX ∨
          g.map (g.posx + a.1).toNat (g.posy + a.2).toNat = BLOCK_TYPE_BOX_AIM
      · cases h3 : oob N (g.posx + a.1 + a.1) (g.posy + a.2 + a.2) with
        | true => rw [step_push_oob N g a h0 h2 h3]; exact case_push_oob h0 h2 h3
        | false =>
          by_cases h4 : g.map (g.posx + a.1 + a.1).toNat (g.posy + a.2 + a.2).toNat =
              BLOCK_TYPE_GROUND ∨
              g.map (g.posx + a.1 + a.1).toNat (g.posy + a.2 + a.2).toNat = BLOCK_TYPE_AIM
          · rw [step_push N g a h0 h2 h3 h4]; exact case_push h0 h2 h3 h4
          · push_neg at h4
            rw [step_push_blocked N g a h0 h2 h3 h4]
            exact case_push_blocked h0 h2 h3 h4.1 h4.2
      · push_neg at h1
        push_neg at h2
        rw [step_blocked N g a h0 ⟨h1.1, h1.2, h2.1, h2.2⟩]
        exact case_blocked h0 h1.1 h1.2 h2.1 h2.2

theorem step_frame (N : ℕ) (g : Game) (a : ℤ × ℤ) :
    (g.step N a).status = g.status ∧ (g.step N a).level = g.level ∧
    (g.step N a).action = g.action := by
  refine step_cases N g a
    (fun g' => g'.status = g.status ∧ g'.level = g.level ∧ g'.action = g.action)
    ?_ ?_ ?_ ?_ ?_ ?_ <;> intros <;> exact ⟨rfl, rfl, rfl⟩

/-! ### C7: out-of-bounds moves are rejected without any effect -/

/-- C7: for every state and direction whose target cell
`Position + d` lies outside the bounds `[0, N-1] × [0, N-1]`, the
movement rule of `advance` (`Game::step`) returns the state completely
unchanged — grid, position, under-tile, and every other component,
including the dirty flag, which is therefore not set. -/
theorem C7_oob_rejected (N : ℕ) (g : Game) (dir : Direction)
    (h : oob N (g.posx + (dirVec dir).1) (g.posy + (dirVec dir).2) = true) :
    g.step N (dirVec dir) = g :=
  step_oob N g (dirVec dir) h

/-- Witness for C7: from the default state (position (0,0)) marked as
playing, a Left move targets x = -1, which is out of bounds on the
4-grid, and the step leaves the state untouched. -/
theorem C7_oob_rejected_witness :
    Game.step 4 { Game.default with status := GameStatus.Playing } (dirVec Direction.left) =
      { Game.default with status := GameStatus.Playing } :=
  C7_oob_rejected 4 { Game.default with status := GameStatus.Playing }
    Direction.left (by decide)

/-! ### C3: what the level-loading branch actually sets -/

/-- Concrete pre-state for C3: a state awaiting a level load whose
under-tile is Aim (as happens when the previous level was won while the
player stood on a target). -/
def gC3 : Game :=
  { Game.default with position_type := BLOCK_TYPE_AIM }

/-- Concrete level for C3. -/
def lvlC3 : MapAsset :=
  { value := fun a b => if a = 1 ∧ b = 1 then BLOCK_TYPE_PLAYER_DOWN else BLOCK_TYPE_GROUND
    position := (1, 1) }

/-- Counterexample to C3: re-initialization does not reset the
under-tile to Ground and does not mark the state dirty.  Loading a
level into a state whose under-tile is Aim keeps the Aim under-tile,
and the dirty flag ends up cleared, contradicting the claimed
`under-tile := Ground` and `marks dirty` effects. -/
theorem C3_counterexample :
    ¬ ((initializeGame gC3 lvlC3).position_type = BLOCK_TYPE_GROUND ∧
      (initializeGame gC3 lvlC3).update = true) := by
  decide

/-- C3 as amended: the level-loading branch of `game_update` sets
Grid := level.grid, Position := level.position and status :=
InProgress, but it clears the dirty flag (the flag was consumed on
entry) and leaves the under-tile, the level index and the pending
action unchanged; in particular a re-initialization after a win keeps
whatever under-tile the player had when the previous level was won. -/
theorem C3_amended_init_fields (g : Game) (lvl : MapAsset) :
    (initializeGame g lvl).map = lvl.value ∧
    (initializeGame g lvl).posx = lvl.position.1 ∧
    (initializeGame g lvl).posy = lvl.position.2 ∧
    (initializeGame g lvl).status = GameStatus.Playing ∧
    (initializeGame g lvl).update = false ∧
    (initializeGame g lvl).position_type = g.position_type ∧
    (initializeGame g lvl).level = g.level ∧
    (initializeGame g lvl).action = g.action :=
  ⟨rfl, rfl, rfl, rfl, rfl, rfl, rfl, rfl⟩

/-! ### C8: where the status guard of action queueing really lives -/

/-- Counterexample to C8: the action-recording site of
`keyboard_input` has no status check.  In the default state, whose
status is `StartPlaying` (not `InProgress`), recording Left still sets
the pending action, contradicting the claimed no-op. -/
theorem C8_counterexample :
    Game.default.status ≠ GameStatus.Playing ∧
    Game.default.action = none ∧
    (queueAction Game.default Direction.left).action = some Direction.left := by
  decide

/-- C8 as amended: `queue_action` records the direction as the pending
action, overwriting any previous one and leaving every other component
unchanged, regardless of status; the status guard lives in `advance`
(`Game::update`), which is a no-op — leaving even the pending action in
place — whenever status ≠ InProgress. -/
theorem C8_amended_queue (N : ℕ) (g : Game) (d : Direction) :
    ((queueAction g d).action = some d ∧
      (queueAction g d).map = g.map ∧
      (queueAction g d).posx = g.posx ∧
      (queueAction g d).posy = g.posy ∧
      (queueAction g d).position_type = g.position_type ∧
      (queueAction g d).status = g.status ∧
      (queueAction g d).update = g.update ∧
      (queueAction g d).level = g.level) ∧
    (g.status ≠ GameStatus.Playing → Game.advance N g = g) := by
  refine ⟨⟨rfl, rfl, rfl, rfl, rfl, rfl, rfl, rfl⟩, fun h => ?_⟩
  rw [Game.advance, if_pos h]

/-- Witness for C8 (amended): queueing Up in the default state records
the action, and `advance` on the default (non-playing) state is a
no-op. -/
theorem C8_amended_queue_witness :
    (queueAction Game.default Direction.up).action = some Direction.up ∧
    Game.advance 4 Game.default = Game.default :=
  ⟨(C8_amended_queue 4 Game.default Direction.up).1.1,
    (C8_amended_queue 4 Game.default Direction.up).2 (by decide)⟩

/-! ### C10: the win check -/

/-- C10: whenever some grid cell holds a plain Box, `Game::win` returns
false and leaves every component of the state (grid, position,
under-tile, level index, status, dirty flag, pending action) unchanged;
when no cell holds a plain Box it returns true, increments the level
index (wrapping past the level count back to 1), sets the status back
to awaiting-load and marks the state dirty, leaving the other
components unchanged. -/
theorem C10_win_check (N : ℕ) (g : Game) :
    ((∃ i < N, ∃ j < N, g.map i j = BLOCK_TYPE_BOX) →
      Game.winCheck N g = (false, g)) ∧
    ((∀ i < N, ∀ j < N, g.map i j ≠ BLOCK_TYPE_BOX) →
      Game.winCheck N g =
        (true,
          { g with
            level := if g.level + 1 > GAME_LEVEL_COUNT then 1 else g.level + 1
            update := true
            status := GameStatus.StartPlaying })) := by
  have hb : g.hasBox N = true ↔ ∃ i < N, ∃ j < N, g.map i j = BLOCK_TYPE_BOX := by
    simp [Game.hasBox, List.any_eq_true, List.mem_range]
  constructor
  · intro h
    rw [Game.winCheck, if_pos (hb.mpr h)]
  · intro h
    have hb' : ¬ g.hasBox N = true := by
      rw [hb]
      push_neg
      exact h
    rw [Game.winCheck, if_neg hb']

/-- Concrete state for the C10 witness: one plain box on an otherwise
ground-filled grid. -/
def gC10 : Game :=
  { Game.default with
    map := fun a b => if a = 0 ∧ b = 0 then BLOCK_TYPE_BOX else BLOCK_TYPE_GROUND
    status := GameStatus.Playing }

/-- Witness for C10: with a plain box at (0,0), the win check reports
false and returns the state unchanged. -/
theorem C10_win_check_witness : Game.winCheck 4 gC10 = (false, gC10) :=
  (C10_win_check 4 gC10).1 ⟨0, by norm_num, 0, by norm_num, by decide⟩

/-! ### Decoder lemmas -/

theorem utf8Step_ascii (b : ℕ) (rest : List ℕ) (hb : b ≤ 127) :
    utf8Step b rest = some rest := by
  rw [utf8Step.eq_def, if_pos hb]

theorem validUtf8Aux_ascii : ∀ (fuel : ℕ) (l : List ℕ), l.length ≤ fuel →
    (∀ b ∈ l, b ≤ 127) → validUtf8Aux fuel l = true
  | 0, [], _, _ => rfl
  | _ + 1, [], _, _ => rfl
  | 0, _ :: _, hlen, _ => by simp at hlen
  | fuel + 1, b :: rest, hlen, h => by
    rw [validUtf8Aux, utf8Step_ascii b rest (h b (List.mem_cons_self b rest))]
    exact validUtf8Aux_ascii fuel rest (by simpa using hlen)
      fun x hx => h x (List.mem_cons_of_mem b hx)

theorem validUtf8_ascii (l : List ℕ) (h : ∀ b ∈ l, b ≤ 127) : validUtf8 l = true :=
  validUtf8Aux_ascii l.length l le_rfl h

theorem replaceCRLF_id : ∀ (l : List ℕ), (∀ b ∈ l, b ≠ 13) → replaceCRLF l = l
  | [], _ => rfl
  | [_], _ => rfl
  | a :: b :: rest, h => by
    have ha : a ≠ 13 := h a (List.mem_cons_self a (b :: rest))
    rw [replaceCRLF, if_neg (fun hc => ha hc.1),
      replaceCRLF_id (b :: rest) fun x hx => h x (List.mem_cons_of_mem a hx)]

theorem mem_cellList (N : ℕ) (c : ℕ × ℕ) : c ∈ cellList N ↔ c.1 < N ∧ c.2 < N := by
  cases c with
  | mk i j =>
    constructor
    · intro h
      simp only [cellList, List.mem_flatMap, List.mem_map, List.mem_range] at h
      obtain ⟨i', hi', j', hj', he⟩ := h
      cases he
      exact ⟨hi', hj'⟩
    · rintro ⟨hi, hj⟩
      simp only [cellList, List.mem_flatMap, List.mem_map, List.mem_range]
      exact ⟨i, hi, j, hj, rfl⟩

theorem decodeCells_none_iff (N : ℕ) (text : List ℕ) :
    ∀ (L : List (ℕ × ℕ)) (st : (ℕ → ℕ → ℕ) × ℤ × ℤ),
      decodeCells N text L st = none ↔
        ∃ c ∈ L, sliceParse text (c.1 * (N + 1) + c.2) = none
  | [], st => by simp [decodeCells]
  | c :: rest, st => by
    cases hs : sliceParse text (c.1 * (N + 1) + c.2) with
    | none =>
      simp only [decodeCells, hs]
      exact ⟨fun _ => ⟨c, List.mem_cons_self c rest, hs⟩, fun _ => trivial⟩
    | some d =>
      rw [decodeCells]
      simp only [hs]
      rw [decodeCells_none_iff N text rest _]
      constructor
      · rintro ⟨x, hx, hfail⟩
        exact ⟨x, List.mem_cons_of_mem c hx, hfail⟩
      · rintro ⟨x, hx, hfail⟩
        rcases List.mem_cons.mp hx with rfl | hx'
        · rw [hs] at hfail
          exact absurd hfail (by simp)
        · exact ⟨x, hx', hfail⟩

theorem decodeCells_value_inv (N : ℕ) (text : List ℕ) :
    ∀ (L : List (ℕ × ℕ)) (st : (ℕ → ℕ → ℕ) × ℤ × ℤ) (v' : ℕ → ℕ → ℕ) (p' : ℤ × ℤ)
      (a b d0 : ℕ),
      decodeCells N text L st = some (v', p') →
      st.1 a b = d0 →
      (∀ c ∈ L, a = c.2 ∧ b = N - c.1 - 1 →
        sliceParse text (c.1 * (N + 1) + c.2) = some d0) →
      v' a b = d0
  | [], st, v', p', a, b, d0 => by
    intro h hst _
    simp only [decodeCells, Option.some.injEq] at h
    rw [h] at hst
    exact hst
  | c :: rest, st, v', p', a, b, d0 => by
    intro h hst hall
    cases hs : sliceParse text (c.1 * (N + 1) + c.2) with
    | none => rw [decodeCells] at h; simp [hs] at h
    | some d =>
      rw [decodeCells] at h
      simp only [hs] at h
      refine decodeCells_value_inv N text rest _ v' p' a b d0 h ?_
        fun x hx hxc => hall x (List.mem_cons_of_mem c hx) hxc
      by_cases hc : a = c.2 ∧ b = N - c.1 - 1
      · have hd : d = d0 := by
          have h2 := hall c (List.mem_cons_self c rest) hc
          rw [hs] at h2
          exact Option.some.inj h2
        show write2 st.1 c.2 (N - c.1 - 1) d a b = d0
        rw [hc.1, hc.2, write2_self]
        exact hd
      · show write2 st.1 c.2 (N - c.1 - 1) d a b = d0
        rw [write2_ne _ _ _ _ _ _ hc]
        exact hst

theorem decodeCells_value_write (N : ℕ) (text : List ℕ) :
    ∀ (L : List (ℕ × ℕ)) (st : (ℕ → ℕ → ℕ) × ℤ × ℤ) (v' : ℕ → ℕ → ℕ) (p' : ℤ × ℤ)
      (c0 : ℕ × ℕ) (d0 : ℕ),
      decodeCells N text L st = some (v', p') →
      c0 ∈ L →
      (∀ c ∈ L, c0.2 = c.2 ∧ N - c0.1 - 1 = N - c.1 - 1 →
        sliceParse text (c.1 * (N + 1) + c.2) = some d0) →
      v' c0.2 (N - c0.1 - 1) = d0
  | [], _, _, _, _, _ => by intro _ hmem _; cases hmem
  | c :: rest, st, v', p', c0, d0 => by
    intro h hmem hall
    cases hs : sliceParse text (c.1 * (N + 1) + c.2) with
    | none => rw [decodeCells] at h; simp [hs] at h
    | some d =>
      rw [decodeCells] at h
      simp only [hs] at h
      by_cases hkey : c0.2 = c.2 ∧ N - c0.1 - 1 = N - c.1 - 1
      · have hd : d = d0 := by
          have h2 := hall c (List.mem_cons_self c rest) hkey
          rw [hs] at h2
          exact Option.some.inj h2
        refine decodeCells_value_inv N text rest _ v' p' c0.2 (N - c0.1 - 1) d0 h ?_
          fun x hx hxc => hall x (List.mem_cons_of_mem c hx) hxc
        show write2 st.1 c.2 (N - c.1 - 1) d c0.2 (N - c0.1 - 1) = d0
        rw [hkey.1, hkey.2, write2_self]
        exact hd
      · have hc0 : c0 ∈ rest := by
          rcases List.mem_cons.mp hmem with rfl | h'
          · exact absurd ⟨rfl, rfl⟩ hkey
          · exact h'
        exact decodeCells_value_write N text rest _ v' p' c0 d0 h hc0
          fun x hx hxc => hall x (List.mem_cons_of_mem c hx) hxc

theorem decodeCells_pos_inv (N : ℕ) (text : List ℕ) :
    ∀ (L : List (ℕ × ℕ)) (st : (ℕ → ℕ → ℕ) × ℤ × ℤ) (v' : ℕ → ℕ → ℕ) (p' q : ℤ × ℤ),
      decodeCells N text L st = some (v', p') →
      st.2 = q →
      (∀ c ∈ L, ∀ d, sliceParse text (c.1 * (N + 1) + c.2) = some d →
        d = BLOCK_TYPE_PLAYER_DOWN → (((c.2 : ℕ) : ℤ), ((N - c.1 - 1 : ℕ) : ℤ)) = q) →
      p' = q
  | [], st, v', p', q => by
    intro h hst _
    simp only [decodeCells, Option.some.injEq] at h
    rw [h] at hst
    exact hst
  | c :: rest, st, v', p', q => by
    intro h hst hall
    cases hs : sliceParse text (c.1 * (N + 1) + c.2) with
    | none => rw [decodeCells] at h; simp [hs] at h
    | some d =>
      rw [decodeCells] at h
      simp only [hs, write2_self] at h
      by_cases hd : d = BLOCK_TYPE_PLAYER_DOWN
      · rw [if_pos hd] at h
        exact decodeCells_pos_inv N text rest _ v' p' q h
          (hall c (List.mem_cons_self c rest) d hs hd)
          fun x hx => hall x (List.mem_cons_of_mem c hx)
      · rw [if_neg hd] at h
        exact decodeCells_pos_inv N text rest _ v' p' q h hst
          fun x hx => hall x (List.mem_cons_of_mem c hx)

theorem decodeCells_pos_find (N : ℕ) (text : List ℕ) :
    ∀ (L : List (ℕ × ℕ)) (st : (ℕ → ℕ → ℕ) × ℤ × ℤ) (v' : ℕ → ℕ → ℕ) (p' : ℤ × ℤ)
      (c0 : ℕ × ℕ),
      decodeCells N text L st = some (v', p') →
      c0 ∈ L →
      sliceParse text (c0.1 * (N + 1) + c0.2) = some BLOCK_TYPE_PLAYER_DOWN →
      (∀ c ∈ L, ∀ d, sliceParse text (c.1 * (N + 1) + c.2) = some d →
        d = BLOCK_TYPE_PLAYER_DOWN → c = c0) →
      p' = (((c0.2 : ℕ) : ℤ), ((N - c0.1 - 1 : ℕ) : ℤ))
  | [], _, _, _, _ => by intro _ hmem _ _; cases hmem
  | c :: rest, st, v', p', c0 => by
    intro h hmem h5 huniq
    cases hs : sliceParse text (c.1 * (N + 1) + c.2) with
    | none => rw [decodeCells] at h; simp [hs] at h
    | some d =>
      rw [decodeCells] at h
      simp only [hs, write2_self] at h
      by_cases hd : d = BLOCK_TYPE_PLAYER_DOWN
      · have hc : c = c0 := huniq c (List.mem_cons_self c rest) d hs hd
        rw [if_pos hd] at h
        subst hc
        exact decodeCells_pos_inv N text rest _ v' p' _ h rfl
          fun x hx d' hd' h5' => by
            have := huniq x (List.mem_cons_of_mem c hx) d' hd' h5'
            rw [this]
      · have hc : c ≠ c0 := by
          intro he
          rw [he, h5] at hs
          exact hd (Option.some.injEq _ _ ▸ hs).symm
        have hc0 : c0 ∈ rest := by
          rcases List.mem_cons.mp hmem with rfl | h'
          · exact absurd rfl hc
          · exact h'
        rw [if_neg hd] at h
        exact decodeCells_pos_find N text rest _ v' p' c0 h hc0 h5
          fun x hx => huniq x (List.mem_cons_of_mem c hx)

theorem sliceParse_ascii (text : List ℕ) (index b : ℕ)
    (hget : text.get? index = some b) (hb : b ≤ 127) :
    sliceParse text index = some (digitVal b) := by
  rw [sliceParse, hget]
  show (if b ≤ 127 then some (digitVal b) else none) = some (digitVal b)
  rw [if_pos hb]

theorem sliceParse_some_ascii (text : List ℕ) (index d : ℕ)
    (h : sliceParse text index = some d) :
    ∃ b, text.get? index = some b ∧ b ≤ 127 ∧ d = digitVal b := by
  rw [sliceParse] at h
  cases hget : text.get? index with
  | none => rw [hget] at h; exact Option.noConfusion h
  | some b =>
    rw [hget] at h
    have h' : (if b ≤ 127 then some (digitVal b) else none) = some d := h
    by_cases hb : b ≤ 127
    · rw [if_pos hb] at h'
      exact ⟨b, rfl, hb, (Option.some.inj h').symm⟩
    · rw [if_neg hb] at h'
      exact Option.noConfusion h'

/-! ### C4: when decoding fails -/

/-- Counterexample to C4: the empty byte string is perfectly valid
text, yet `decode` fails on it (the source's byte-range slice
`text[0..1]` panics), so malformed row/column counts are not always
tolerated and failure is not restricted to undecodable bytes. -/
theorem C4_counterexample :
    decode 20 ([] : List ℕ) = none ∧ validUtf8 [] = true :=
  ⟨rfl, rfl⟩

/-- C4 as amended: `decode` fails exactly when the raw bytes are not
valid UTF-8 text, or when some sampled cell offset `i * (N + 1) + j` of
the CRLF-normalized text is past the end of the text or holds a
non-ASCII byte (the slice panic).  In every other case — in particular
unparsable ASCII digits, which default to Blank — it yields a level. -/
theorem C4_amended_decode_failure (N : ℕ) (bytes : List ℕ) :
    decode N bytes = none ↔
      validUtf8 bytes = false ∨
        ∃ i < N, ∃ j < N, sliceParse (replaceCRLF bytes) (i * (N + 1) + j) = none := by
  cases hv : validUtf8 bytes with
  | false =>
    unfold decode
    rw [if_neg (by rw [hv]; exact Bool.false_ne_true)]
    simp
  | true =>
    unfold decode
    rw [if_pos hv]
    cases hd : decodeCells N (replaceCRLF bytes) (cellList N) ((fun _ _ => 0), (0, 0)) with
    | none =>
      obtain ⟨c, hc, hfail⟩ := (decodeCells_none_iff N (replaceCRLF bytes) (cellList N) _).mp hd
      rw [mem_cellList] at hc
      exact ⟨fun _ => Or.inr ⟨c.1, hc.1, c.2, hc.2, hfail⟩, fun _ => rfl⟩
    | some vp =>
      cases vp with
      | mk v p =>
        constructor
        · intro h
          exact Option.noConfusion h
        · rintro (h | ⟨i, hi, j, hj, hfail⟩)
          · exact Bool.noConfusion h
          · have hnone : decodeCells N (replaceCRLF bytes) (cellList N)
                ((fun _ _ => 0), (0, 0)) = none :=
              (decodeCells_none_iff N (replaceCRLF bytes) (cellList N) _).mpr
                ⟨(i, j), (mem_cellList N (i, j)).mpr ⟨hi, hj⟩, hfail⟩
            rw [hd] at hnone
            exact Option.noConfusion hnone

/-! ### C5: the coordinate mapping and starting position of decode -/

/-- C5: on an `N`-by-`N` input text laid out top-to-bottom with one
ASCII character per cell (rows of `N` cells at offsets
`i * (N + 1) + j`, CR-free so that CRLF normalization is the identity),
`decode` succeeds, stores the tile kind whose code is the digit at
source row `i`, column `j` into grid cell `(j, N - i - 1)` — an
unparsable character defaulting to Blank via `digitVal` — and, when
exactly one cell carries the player-facing-down code 5, returns that
cell's logical coordinates as the starting position. -/
theorem C5_decode_mapping (N : ℕ) (text : List ℕ)
    (hA : ∀ b ∈ text, b ≤ 127 ∧ b ≠ 13)
    (hcells : ∀ i < N, ∀ j < N, ∃ b, text.get? (i * (N + 1) + j) = some b)
    (i0 j0 b0 : ℕ) (hi0 : i0 < N) (hj0 : j0 < N)
    (hb0 : text.get? (i0 * (N + 1) + j0) = some b0)
    (h5 : digitVal b0 = BLOCK_TYPE_PLAYER_DOWN)
    (huniq : ∀ i < N, ∀ j < N, ∀ b, text.get? (i * (N + 1) + j) = some b →
      digitVal b = BLOCK_TYPE_PLAYER_DOWN → (i, j) = (i0, j0)) :
    ∃ lvl : MapAsset, decode N text = some lvl ∧
      (∀ i < N, ∀ j < N, ∀ b, text.get? (i * (N + 1) + j) = some b →
        lvl.value j (N - i - 1) = digitVal b) ∧
      lvl.position = ((j0 : ℤ), ((N - i0 - 1 : ℕ) : ℤ)) := by
  have hrep : replaceCRLF text = text := replaceCRLF_id text fun b hb => (hA b hb).2
  have hv : validUtf8 text = true := validUtf8_ascii text fun b hb => (hA b hb).1
  have hsp : ∀ i < N, ∀ j < N, ∃ b, text.get? (i * (N + 1) + j) = some b ∧
      sliceParse text (i * (N + 1) + j) = some (digitVal b) := by
    intro i hi j hj
    obtain ⟨b, hb⟩ := hcells i hi j hj
    exact ⟨b, hb, sliceParse_ascii text _ b hb (hA b (List.get?_mem hb)).1⟩
  cases hd : decodeCells N text (cellList N) ((fun _ _ => 0), (0, 0)) with
  | none =>
    obtain ⟨c, hc, hfail⟩ := (decodeCells_none_iff N text (cellList N) _).mp hd
    rw [mem_cellList] at hc
    obtain ⟨b, _, hsome⟩ := hsp c.1 hc.1 c.2 hc.2
    rw [hsome] at hfail
    exact Option.noConfusion hfail
  | some vp =>
    cases vp with
    | mk v p =>
      refine ⟨{ value := v, position := p }, ?_, ?_, ?_⟩
      · unfold decode
        rw [if_pos hv, hrep, hd]
      · intro i hi j hj b hb
        refine decodeCells_value_write N text (cellList N) _ v p (i, j) (digitVal b) hd
          ((mem_cellList N (i, j)).mpr ⟨hi, hj⟩) ?_
        intro c hc hkey
        rw [mem_cellList] at hc
        have hci : c.1 = i := by omega
        have hcj : c.2 = j := hkey.1.symm
        obtain ⟨b', hb', hsome⟩ := hsp c.1 hc.1 c.2 hc.2
        have : b' = b := by
          rw [hci, hcj] at hb'
          rw [hb'] at hb
          exact Option.some.inj hb
        rw [hsome, this]
      · show p = _
        refine decodeCells_pos_find N text (cellList N) _ v p (i0, j0) hd
          ((mem_cellList N (i0, j0)).mpr ⟨hi0, hj0⟩) ?_ ?_
        · rw [sliceParse_ascii text _ b0 hb0 (hA b0 (List.get?_mem hb0)).1, h5]
        · intro c hc d hd' h5'
          rw [mem_cellList] at hc
          obtain ⟨b', hget, _, hdv⟩ := sliceParse_some_ascii text _ d hd'
          have := huniq c.1 hc.1 c.2 hc.2 b' hget (by rw [← hdv]; exact h5')
          cases c
          exact this

/-- The claim's example input for N = 4: the text
`"0500\n0000\n0000\n0000\n"` as bytes. -/
def exTextC5 : List ℕ :=
  [48, 53, 48, 48, 10, 48, 48, 48, 48, 10, 48, 48, 48, 48, 10, 48, 48, 48, 48, 10]

/-- Witness for C5: decoding `"0500\n0000\n0000\n0000\n"` with N = 4
yields starting position (1, 3) and the player-facing-down tile at grid
cell (1, 3). -/
theorem C5_decode_mapping_witness :
    ∃ lvl : MapAsset, decode 4 exTextC5 = some lvl ∧
      lvl.position = ((1 : ℤ), (3 : ℤ)) ∧
      lvl.value 1 3 = BLOCK_TYPE_PLAYER_DOWN := by
  obtain ⟨lvl, hdec, hval, hpos⟩ :=
    C5_decode_mapping 4 exTextC5 (by decide)
      (by
        intro i hi j hj
        interval_cases i <;> interval_cases j <;> exact ⟨_, rfl⟩)
      0 1 53 (by norm_num) (by norm_num) rfl (by decide)
      (by
        intro i hi j hj b hb h5
        interval_cases i <;> interval_cases j <;>
          first
            | rfl
            | (injection hb with hb'
               subst hb'
               exact absurd h5 (by decide)))
  refine ⟨lvl, hdec, by simpa using hpos, ?_⟩
  have hv13 := hval 0 (by norm_num) 1 (by norm_num) 53 rfl
  simpa [digitVal] using hv13

/-! ### Pointwise characterizations of the two mutating branches -/

theorem oob_false_iff (N : ℕ) (x y : ℤ) :
    oob N x y = false ↔ 0 ≤ x ∧ x ≤ (N : ℤ) - 1 ∧ 0 ≤ y ∧ y ≤ (N : ℤ) - 1 := by
  simp [oob, not_or, not_lt]
  omega

theorem isPlayerB_iff (v : ℕ) : isPlayerB v = true ↔ v = 5 ∨ v = 6 ∨ v = 7 ∨ v = 8 := by
  simp [isPlayerB, BLOCK_TYPE_PLAYER_DOWN, BLOCK_TYPE_PLAYER_RIGHT,
    BLOCK_TYPE_PLAYER_LEFT, BLOCK_TYPE_PLAYER_UP]
  tauto

theorem isBox_iff (v : ℕ) : isBox v = true ↔ v = 3 ∨ v = 9 := by
  simp [isBox, BLOCK_TYPE_BOX, BLOCK_TYPE_BOX_AIM]

theorem getPlayerType_isPlayer (a : ℤ × ℤ) : isPlayerB (getPlayerType a) = true := by
  rcases getPlayerType_mem a with h | h | h | h <;> rw [h] <;> rfl

theorem moveInto_map_pointwise (g : Game) (a : ℤ × ℤ) (nx ny : ℤ) (x y : ℕ) :
    (g.moveInto a nx ny).map x y =
      if x = nx.toNat ∧ y = ny.toNat then getPlayerType a
      else if x = g.posx.toNat ∧ y = g.posy.toNat then g.position_type
      else g.map x y := rfl

theorem moveInto_new_pt (g : Game) (a : ℤ × ℤ) (nx ny : ℤ) :
    (g.moveInto a nx ny).position_type =
      if nx.toNat = g.posx.toNat ∧ ny.toNat = g.posy.toNat then g.position_type
      else g.map nx.toNat ny.toNat := rfl

theorem moveInto_fields (g : Game) (a : ℤ × ℤ) (nx ny : ℤ) :
    (g.moveInto a nx ny).posx = nx ∧ (g.moveInto a nx ny).posy = ny ∧
    (g.moveInto a nx ny).update = true := ⟨rfl, rfl, rfl⟩

theorem pushInto_map_other (g : Game) (a : ℤ × ℤ) (nx ny n2x n2y : ℤ) (x y : ℕ)
    (hn2 : ¬(x = n2x.toNat ∧ y = n2y.toNat))
    (hn : ¬(x = nx.toNat ∧ y = ny.toNat))
    (hp : ¬(x = g.posx.toNat ∧ y = g.posy.toNat)) :
    (g.pushInto a nx ny n2x n2y).map x y = g.map x y := by
  show (if _ then write2 _ _ _ BLOCK_TYPE_BOX else write2 _ _ _ BLOCK_TYPE_BOX_AIM) x y = _
  split_ifs <;> simp [write2, hn2, hn, hp]

theorem pushInto_map_n2 (g : Game) (a : ℤ × ℤ) (nx ny n2x n2y : ℤ)
    (hn2n : ¬(n2x.toNat = nx.toNat ∧ n2y.toNat = ny.toNat))
    (hn2p : ¬(n2x.toNat = g.posx.toNat ∧ n2y.toNat = g.posy.toNat)) :
    (g.pushInto a nx ny n2x n2y).map n2x.toNat n2y.toNat =
      if g.map n2x.toNat n2y.toNat = BLOCK_TYPE_GROUND then BLOCK_TYPE_BOX
      else BLOCK_TYPE_BOX_AIM := by
  show (if write2 (write2 _ _ _ _) _ _ _ _ _ = BLOCK_TYPE_GROUND then
      write2 _ _ _ BLOCK_TYPE_BOX else write2 _ _ _ BLOCK_TYPE_BOX_AIM) _ _ = _
  rw [write2_ne _ _ _ _ _ _ hn2n, write2_ne _ _ _ _ _ _ hn2p]
  split_ifs <;> simp [write2]

theorem pushInto_map_next (g : Game) (a : ℤ × ℤ) (nx ny n2x n2y : ℤ)
    (hnn2 : ¬(nx.toNat = n2x.toNat ∧ ny.toNat = n2y.toNat)) :
    (g.pushInto a nx ny n2x n2y).map nx.toNat ny.toNat = getPlayerType a := by
  show (if _ then write2 _ _ _ BLOCK_TYPE_BOX else write2 _ _ _ BLOCK_TYPE_BOX_AIM) _ _ = _
  split_ifs <;> rw [write2_ne _ _ _ _ _ _ hnn2] <;> simp [write2]

theorem pushInto_map_pos (g : Game) (a : ℤ × ℤ) (nx ny n2x n2y : ℤ)
    (hpn2 : ¬(g.posx.toNat = n2x.toNat ∧ g.posy.toNat = n2y.toNat))
    (hpn : ¬(g.posx.toNat = nx.toNat ∧ g.posy.toNat = ny.toNat)) :
    (g.pushInto a nx ny n2x n2y).map g.posx.toNat g.posy.toNat = g.position_type := by
  show (if _ then write2 _ _ _ BLOCK_TYPE_BOX else write2 _ _ _ BLOCK_TYPE_BOX_AIM) _ _ = _
  split_ifs <;> rw [write2_ne _ _ _ _ _ _ hpn2, write2_ne _ _ _ _ _ _ hpn] <;>
    simp [write2]

theorem pushInto_new_pt (g : Game) (a : ℤ × ℤ) (nx ny n2x n2y : ℤ)
    (hnp : ¬(nx.toNat = g.posx.toNat ∧ ny.toNat = g.posy.toNat)) :
    (g.pushInto a nx ny n2x n2y).position_type =
      if g.map nx.toNat ny.toNat = BLOCK_TYPE_BOX then BLOCK_TYPE_GROUND
      else BLOCK_TYPE_AIM := by
  show (if write2 _ _ _ _ _ _ = BLOCK_TYPE_BOX then BLOCK_TYPE_GROUND else BLOCK_TYPE_AIM) = _
  rw [write2_ne _ _ _ _ _ _ hnp]

theorem pushInto_fields (g : Game) (a : ℤ × ℤ) (nx ny n2x n2y : ℤ) :
    (g.pushInto a nx ny n2x n2y).posx = nx ∧ (g.pushInto a nx ny n2x n2y).posy = ny ∧
    (g.pushInto a nx ny n2x n2y).update = true := ⟨rfl, rfl, rfl⟩

theorem isBox_player (a : ℤ × ℤ) : isBox (getPlayerType a) = false := by
  rcases getPlayerType_mem a with h | h | h | h <;> rw [h] <;> rfl

theorem isBox_of_player {v : ℕ} (h : isPlayerB v = true) : isBox v = false := by
  rcases (isPlayerB_iff v).mp h with rfl | rfl | rfl | rfl <;> rfl

theorem not_player_ground_aim {v : ℕ}
    (h : v = BLOCK_TYPE_GROUND ∨ v = BLOCK_TYPE_AIM) : isPlayerB v = false := by
  rcases h with rfl | rfl <;> rfl

theorem not_player_box {v : ℕ}
    (h : v = BLOCK_TYPE_BOX ∨ v = BLOCK_TYPE_BOX_AIM) : isPlayerB v = false := by
  rcases h with rfl | rfl <;> rfl

/-! ### Counting boxes -/

theorem boxCount_congr (N : ℕ) (m' m : ℕ → ℕ → ℕ)
    (h : ∀ x < N, ∀ y < N, isBox (m' x y) = isBox (m x y)) :
    boxCount N m' = boxCount N m := by
  unfold boxCount
  refine Finset.sum_congr rfl ?_
  intro p hp
  rw [Finset.mem_product, Finset.mem_range, Finset.mem_range] at hp
  rw [h p.1 hp.1 p.2 hp.2]

theorem boxCount_swap (N : ℕ) (m' m : ℕ → ℕ → ℕ) (a b : ℕ × ℕ)
    (ha1 : a.1 < N) (ha2 : a.2 < N) (hb1 : b.1 < N) (hb2 : b.2 < N) (hab : a ≠ b)
    (hother : ∀ x < N, ∀ y < N, ¬(x = a.1 ∧ y = a.2) → ¬(x = b.1 ∧ y = b.2) →
      isBox (m' x y) = isBox (m x y))
    (hsum : ((if isBox (m' a.1 a.2) then 1 else 0) : ℕ) +
        (if isBox (m' b.1 b.2) then 1 else 0) =
      ((if isBox (m a.1 a.2) then 1 else 0) : ℕ) +
        (if isBox (m b.1 b.2) then 1 else 0)) :
    boxCount N m' = boxCount N m := by
  unfold boxCount
  have haM : a ∈ Finset.range N ×ˢ Finset.range N :=
    Finset.mem_product.mpr ⟨Finset.mem_range.mpr ha1, Finset.mem_range.mpr ha2⟩
  have hbM : b ∈ (Finset.range N ×ˢ Finset.range N).erase a :=
    Finset.mem_erase.mpr ⟨fun he => hab he.symm,
      Finset.mem_product.mpr ⟨Finset.mem_range.mpr hb1, Finset.mem_range.mpr hb2⟩⟩
  rw [← Finset.add_sum_erase _ (fun p => if isBox (m' p.1 p.2) then 1 else 0) haM,
    ← Finset.add_sum_erase _ (fun p => if isBox (m p.1 p.2) then 1 else 0) haM,
    ← Finset.add_sum_erase _ (fun p => if isBox (m' p.1 p.2) then 1 else 0) hbM,
    ← Finset.add_sum_erase _ (fun p => if isBox (m p.1 p.2) then 1 else 0) hbM]
  have hrest :
      (∑ p ∈ ((Finset.range N ×ˢ Finset.range N).erase a).erase b,
        if isBox (m' p.1 p.2) then 1 else 0) =
      ∑ p ∈ ((Finset.range N ×ˢ Finset.range N).erase a).erase b,
        if isBox (m p.1 p.2) then 1 else 0 := by
    refine Finset.sum_congr rfl ?_
    intro p hp
    have hpb : p ≠ b := (Finset.mem_erase.mp hp).1
    have hpa : p ≠ a := (Finset.mem_erase.mp (Finset.mem_erase.mp hp).2).1
    have hpm := (Finset.mem_erase.mp (Finset.mem_erase.mp hp).2).2
    rw [Finset.mem_product, Finset.mem_range, Finset.mem_range] at hpm
    rw [hother p.1 hpm.1 p.2 hpm.2
      (fun hc => hpa (Prod.ext hc.1 hc.2))
      (fun hc => hpb (Prod.ext hc.1 hc.2))]
  rw [hrest]
  omega

/-! ### The state invariant is preserved by a step, which conserves boxes -/

theorem step_preserves (N : ℕ) (g : Game) (a : ℤ × ℤ)
    (hb : 0 ≤ g.posx ∧ g.posx < (N : ℤ) ∧ 0 ≤ g.posy ∧ g.posy < (N : ℤ))
    (hpt : g.position_type = BLOCK_TYPE_GROUND ∨ g.position_type = BLOCK_TYPE_AIM)
    (huniq : ∀ x < N, ∀ y < N,
      (isPlayerB (g.map x y) = true ↔ x = g.posx.toNat ∧ y = g.posy.toNat)) :
    (0 ≤ (g.step N a).posx ∧ (g.step N a).posx < (N : ℤ) ∧
      0 ≤ (g.step N a).posy ∧ (g.step N a).posy < (N : ℤ)) ∧
    ((g.step N a).position_type = BLOCK_TYPE_GROUND ∨
      (g.step N a).position_type = BLOCK_TYPE_AIM) ∧
    (∀ x < N, ∀ y < N,
      (isPlayerB ((g.step N a).map x y) = true ↔
        x = (g.step N a).posx.toNat ∧ y = (g.step N a).posy.toNat)) ∧
    boxCount N (g.step N a).map = boxCount N g.map := by
  have hpN : g.posx.toNat < N ∧ g.posy.toNat < N := by omega
  have hplayer_p : isPlayerB (g.map g.posx.toNat g.posy.toNat) = true :=
    (huniq _ hpN.1 _ hpN.2).mpr ⟨rfl, rfl⟩
  refine step_cases N g a (fun g' =>
    (0 ≤ g'.posx ∧ g'.posx < (N : ℤ) ∧ 0 ≤ g'.posy ∧ g'.posy < (N : ℤ)) ∧
    (g'.position_type = BLOCK_TYPE_GROUND ∨ g'.position_type = BLOCK_TYPE_AIM) ∧
    (∀ x < N, ∀ y < N,
      (isPlayerB (g'.map x y) = true ↔ x = g'.posx.toNat ∧ y = g'.posy.toNat)) ∧
    boxCount N g'.map = boxCount N g.map)
    ?_ ?_ ?_ ?_ ?_ ?_
  · intro _
    exact ⟨hb, hpt, huniq, rfl⟩
  · -- plain move into Ground or Aim
    intro hoob hmn
    have hN := (oob_false_iff N _ _).mp hoob
    have hnN : (g.posx + a.1).toNat < N ∧ (g.posy + a.2).toNat < N := by omega
    have hnotp_n : isPlayerB (g.map (g.posx + a.1).toNat (g.posy + a.2).toNat) = false :=
      not_player_ground_aim hmn
    have hne : ¬((g.posx + a.1).toNat = g.posx.toNat ∧ (g.posy + a.2).toNat = g.posy.toNat) := by
      intro hc
      exact absurd ((huniq _ hnN.1 _ hnN.2).mpr hc)
        (by rw [hnotp_n]; exact Bool.false_ne_true)
    refine ⟨?_, ?_, ?_, ?_⟩
    · show 0 ≤ g.posx + a.1 ∧ g.posx + a.1 < (N : ℤ) ∧
        0 ≤ g.posy + a.2 ∧ g.posy + a.2 < (N : ℤ)
      omega
    · rw [moveInto_new_pt, if_neg hne]
      exact hmn
    · intro x hx y hy
      rw [moveInto_map_pointwise]
      show _ ↔ x = (g.posx + a.1).toNat ∧ y = (g.posy + a.2).toNat
      by_cases h1 : x = (g.posx + a.1).toNat ∧ y = (g.posy + a.2).toNat
      · rw [if_pos h1, getPlayerType_isPlayer]
        exact ⟨fun _ => h1, fun _ => rfl⟩
      · rw [if_neg h1]
        by_cases h2 : x = g.posx.toNat ∧ y = g.posy.toNat
        · rw [if_pos h2, not_player_ground_aim hpt]
          exact ⟨fun hf => Bool.noConfusion hf, fun hc => absurd hc h1⟩
        · rw [if_neg h2, huniq x hx y hy]
          exact iff_of_false h2 h1
    · refine boxCount_congr N _ _ ?_
      intro x hx y hy
      rw [moveInto_map_pointwise]
      by_cases h1 : x = (g.posx + a.1).toNat ∧ y = (g.posy + a.2).toNat
      · rw [if_pos h1, isBox_player, h1.1, h1.2]
        rcases hmn with h | h <;> rw [h] <;> rfl
      · rw [if_neg h1]
        by_cases h2 : x = g.posx.toNat ∧ y = g.posy.toNat
        · rw [if_pos h2, h2.1, h2.2, isBox_of_player hplayer_p]
          rcases hpt with h | h <;> rw [h] <;> rfl
        · rw [if_neg h2]
  · -- move blocked: no branch applies
    intro _ _ _ _ _
    exact ⟨hb, hpt, huniq, rfl⟩
  · -- push target out of bounds
    intro _ _ _
    exact ⟨hb, hpt, huniq, rfl⟩
  · -- push landing blocked
    intro _ _ _ _ _
    exact ⟨hb, hpt, huniq, rfl⟩
  · -- successful push
    intro hoob hmn hoob2 hm2
    have hN := (oob_false_iff N _ _).mp hoob
    have hN2 := (oob_false_iff N _ _).mp hoob2
    have hnN : (g.posx + a.1).toNat < N ∧ (g.posy + a.2).toNat < N := by omega
    have hn2N : (g.posx + a.1 + a.1).toNat < N ∧ (g.posy + a.2 + a.2).toNat < N := by omega
    have hnotp_n : isPlayerB (g.map (g.posx + a.1).toNat (g.posy + a.2).toNat) = false :=
      not_player_box hmn
    have hnotp_n2 : isPlayerB
        (g.map (g.posx + a.1 + a.1).toNat (g.posy + a.2 + a.2).toNat) = false :=
      not_player_ground_aim hm2
    have hn_p : ¬((g.posx + a.1).toNat = g.posx.toNat ∧
        (g.posy + a.2).toNat = g.posy.toNat) := by
      intro hc
      exact absurd ((huniq _ hnN.1 _ hnN.2).mpr hc)
        (by rw [hnotp_n]; exact Bool.false_ne_true)
    have hn2_p : ¬((g.posx + a.1 + a.1).toNat = g.posx.toNat ∧
        (g.posy + a.2 + a.2).toNat = g.posy.toNat) := by
      intro hc
      exact absurd ((huniq _ hn2N.1 _ hn2N.2).mpr hc)
        (by rw [hnotp_n2]; exact Bool.false_ne_true)
    have hn2_n : ¬((g.posx + a.1 + a.1).toNat = (g.posx + a.1).toNat ∧
        (g.posy + a.2 + a.2).toNat = (g.posy + a.2).toNat) := by
      intro hc
      rw [hc.1, hc.2] at hm2
      unfold BLOCK_TYPE_GROUND BLOCK_TYPE_AIM at hm2
      unfold BLOCK_TYPE_BOX BLOCK_TYPE_BOX_AIM at hmn
      omega
    refine ⟨?_, ?_, ?_, ?_⟩
    · show 0 ≤ g.posx + a.1 ∧ g.posx + a.1 < (N : ℤ) ∧
        0 ≤ g.posy + a.2 ∧ g.posy + a.2 < (N : ℤ)
      omega
    · rw [pushInto_new_pt _ _ _ _ _ _ hn_p]
      split_ifs with h
      · exact Or.inl rfl
      · exact Or.inr rfl
    · intro x hx y hy
      show _ ↔ x = (g.posx + a.1).toNat ∧ y = (g.posy + a.2).toNat
      by_cases h1 : x = (g.posx + a.1 + a.1).toNat ∧ y = (g.posy + a.2 + a.2).toNat
      · rw [h1.1, h1.2, pushInto_map_n2 _ _ _ _ _ _ hn2_n hn2_p]
        have hval : isPlayerB (if g.map (g.posx + a.1 + a.1).toNat
            (g.posy + a.2 + a.2).toNat = BLOCK_TYPE_GROUND then BLOCK_TYPE_BOX
            else BLOCK_TYPE_BOX_AIM) = false := by
          split_ifs <;> rfl
        rw [hval]
        exact ⟨fun hf => Bool.noConfusion hf, fun hc => absurd hc hn2_n⟩
      · by_cases h2 : x = (g.posx + a.1).toNat ∧ y = (g.posy + a.2).toNat
        · rw [h2.1, h2.2, pushInto_map_next _ _ _ _ _ _
            (fun hc => hn2_n ⟨hc.1.symm, hc.2.symm⟩), getPlayerType_isPlayer]
          exact ⟨fun _ => ⟨rfl, rfl⟩, fun _ => rfl⟩
        · by_cases h3 : x = g.posx.toNat ∧ y = g.posy.toNat
          · rw [h3.1, h3.2, pushInto_map_pos _ _ _ _ _ _
              (fun hc => hn2_p ⟨hc.1.symm, hc.2.symm⟩)
              (fun hc => hn_p ⟨hc.1.symm, hc.2.symm⟩),
              not_player_ground_aim hpt]
            exact ⟨fun hf => Bool.noConfusion hf, fun hc => (hn_p ⟨hc.1.symm, hc.2.symm⟩).elim⟩
          · rw [pushInto_map_other _ _ _ _ _ _ _ _ h1 h2 h3, huniq x hx y hy]
            exact iff_of_false h3 h2
    · refine boxCount_swap N _ _ ((g.posx + a.1).toNat, (g.posy + a.2).toNat)
        ((g.posx + a.1 + a.1).toNat, (g.posy + a.2 + a.2).toNat)
        hnN.1 hnN.2 hn2N.1 hn2N.2
        (fun he => hn2_n ⟨congrArg Prod.fst he.symm, congrArg Prod.snd he.symm⟩)
        ?_ ?_
      · intro x hx y hy hna hnb
        by_cases h3 : x = g.posx.toNat ∧ y = g.posy.toNat
        · rw [h3.1, h3.2, pushInto_map_pos _ _ _ _ _ _
            (fun hc => hn2_p ⟨hc.1.symm, hc.2.symm⟩)
            (fun hc => hn_p ⟨hc.1.symm, hc.2.symm⟩)]
          rw [isBox_of_player hplayer_p]
          rcases hpt with h | h <;> rw [h] <;> rfl
        · rw [pushInto_map_other _ _ _ _ _ _ _ _ hnb hna h3]
      · rw [pushInto_map_next _ _ _ _ _ _ (fun hc => hn2_n ⟨hc.1.symm, hc.2.symm⟩),
          pushInto_map_n2 _ _ _ _ _ _ hn2_n hn2_p, isBox_player]
        have h1 : isBox (if g.map (g.posx + a.1 + a.1).toNat
            (g.posy + a.2 + a.2).toNat = BLOCK_TYPE_GROUND then BLOCK_TYPE_BOX
            else BLOCK_TYPE_BOX_AIM) = true := by
          split_ifs <;> rfl
        have h2 : isBox (g.map (g.posx + a.1).toNat (g.posy + a.2).toNat) = true := by
          rcases hmn with h | h <;> rw [h] <;> rfl
        have h3 : isBox (g.map (g.posx + a.1 + a.1).toNat
            (g.posy + a.2 + a.2).toNat) = false := by
          rcases hm2 with h | h <;> rw [h] <;> rfl
        rw [h1, h2, h3]
        decide

theorem advance_not_playing (N : ℕ) (g : Game) (h : g.status ≠ GameStatus.Playing) :
    Game.advance N g = g := by
  rw [Game.advance, if_pos h]

theorem advance_playing (N : ℕ) (g : Game) (hs : g.status = GameStatus.Playing) :
    Game.advance N g =
      { (match g.action with
          | some d => g.step N (dirVec d)
          | none => g) with action := none } := by
  rw [Game.advance, if_neg (fun hne => hne hs)]

/-- Every reachable state satisfies the engine invariant: the
under-tile is Ground or Aim, and while playing the position is a grid
cell holding the unique player-facing tile of the grid. -/
theorem reachable_inv (N : ℕ) (g : Game) (h : Reachable N g) : Inv N g := by
  induction h with
  | base =>
    exact ⟨Or.inl rfl, fun hs => GameStatus.noConfusion hs⟩
  | init hr hst hwf ih =>
    refine ⟨ih.1, fun _ => ?_⟩
    obtain ⟨h1, h2, h3, h4, h5⟩ := hwf
    exact ⟨h1, h2, h3, h4, h5⟩
  | queue d hr ih =>
    exact ih
  | adv hr ih =>
    rename_i g'
    by_cases hs : g'.status = GameStatus.Playing
    · rw [advance_playing N g' hs]
      cases ha : g'.action with
      | none =>
        exact ⟨ih.1, fun _ => (ih.2 hs).imp id id⟩
      | some d =>
        obtain ⟨hb1, hb2, hb3, hb4, huniq⟩ := ih.2 hs
        have hp := step_preserves N g' (dirVec d) ⟨hb1, hb2, hb3, hb4⟩ ih.1 huniq
        exact ⟨hp.2.1, fun _ => ⟨hp.1.1, hp.1.2.1, hp.1.2.2.1, hp.1.2.2.2, hp.2.2.1⟩⟩
    · rw [advance_not_playing N g' hs]
      exact ih
  | winchk hr hs ih =>
    rename_i g'
    unfold gameUpdatePlaying Game.winCheck
    split_ifs with hbox hlvl
    · exact ⟨ih.1, fun h' => (ih.2 hs).imp id id⟩
    · exact ⟨ih.1, fun h' => GameStatus.noConfusion h'⟩
    · exact ⟨ih.1, fun h' => GameStatus.noConfusion h'⟩

/-! ### C2: box conservation -/

/-- C2: in every reachable in-progress state with a queued directional
action, `advance` conserves the number of grid cells holding Box or
Box-on-target: pushing only relabels boxes, never creates or destroys
them. -/
theorem C2_box_conservation (N : ℕ) (g : Game) (dir : Direction)
    (hr : Reachable N g) (hs : g.status = GameStatus.Playing)
    (ha : g.action = some dir) :
    boxCount N (Game.advance N g).map = boxCount N g.map := by
  obtain ⟨hpt, hplay⟩ := reachable_inv N g hr
  obtain ⟨h1, h2, h3, h4, huniq⟩ := hplay hs
  rw [advance_playing N g hs, ha]
  show boxCount N (g.step N (dirVec dir)).map = boxCount N g.map
  exact (step_preserves N g (dirVec dir) ⟨h1, h2, h3, h4⟩ hpt huniq).2.2.2

/-- A well-formed concrete level: the player-facing-down tile at (1,1)
of a ground-filled 4-grid, with matching starting position. -/
def lvlW : MapAsset :=
  { value := fun a b => if a = 1 ∧ b = 1 then BLOCK_TYPE_PLAYER_DOWN else BLOCK_TYPE_GROUND
    position := (1, 1) }

/-- A reachable playing state with a queued Right action. -/
def gW2 : Game := queueAction (initializeGame Game.default lvlW) Direction.right

/-- Witness for C2 at a concrete reachable state. -/
theorem C2_box_conservation_witness :
    boxCount 4 (Game.advance 4 gW2).map = boxCount 4 gW2.map :=
  C2_box_conservation 4 gW2 Direction.right
    (Reachable.queue Direction.right (Reachable.init Reachable.base rfl (by decide)))
    rfl rfl

/-! ### C6: player uniqueness -/

/-- A level that satisfies the claim's notion of well-formedness — its
grid holds exactly one player-facing cell — but whose recorded starting
position is elsewhere, exactly what the decoder produces when the
unique player tile is not the player-facing-down kind (it only scans
for code 5 and otherwise leaves the position at the origin). -/
def lvlC6 : MapAsset :=
  { value := fun a b => if a = 2 ∧ b = 2 then BLOCK_TYPE_PLAYER_UP else BLOCK_TYPE_GROUND
    position := (0, 0) }

/-- The state obtained by initializing with `lvlC6`. -/
def gC6 : Game := initializeGame Game.default lvlC6

/-- Counterexample to C6: after initializing with a level whose grid
contains exactly one player-facing cell (at (2,2)), the game is in
progress but the unique player-facing cell is not the cell at the
current Position (0,0) — the claim's "namely the cell at the current
Position" fails. -/
theorem C6_counterexample :
    (∀ x < 4, ∀ y < 4, (isPlayerB (gC6.map x y) = true ↔ x = 2 ∧ y = 2)) ∧
    gC6.status = GameStatus.Playing ∧
    gC6.posx = 0 ∧ gC6.posy = 0 ∧
    isPlayerB (gC6.map gC6.posx.toNat gC6.posy.toNat) = false := by
  decide

/-- C6 as amended: for a well-formed level — exactly one player-facing
cell, located at the level's (in-bounds) starting position — after
initialization and after every subsequent operation of the engine,
while the status is in-progress the position is a grid cell and the
player-facing cells of the grid are exactly the cell at the current
Position. -/
theorem C6_amended_player_unique (N : ℕ) (g : Game)
    (hr : Reachable N g) (hs : g.status = GameStatus.Playing) :
    0 ≤ g.posx ∧ g.posx < (N : ℤ) ∧ 0 ≤ g.posy ∧ g.posy < (N : ℤ) ∧
    ∀ x < N, ∀ y < N,
      (isPlayerB (g.map x y) = true ↔ x = g.posx.toNat ∧ y = g.posy.toNat) :=
  (reachable_inv N g hr).2 hs

/-- The state obtained by initializing with the well-formed `lvlW`. -/
def gW6 : Game := initializeGame Game.default lvlW

/-- Witness for C6 (amended): in the concrete initialized state the
cell at the current position carries a player-facing tile. -/
theorem C6_amended_player_unique_witness :
    isPlayerB (gW6.map gW6.posx.toNat gW6.posy.toNat) = true := by
  have h := C6_amended_player_unique 4 gW6
    (Reachable.init Reachable.base rfl (by decide)) rfl
  exact (h.2.2.2.2 gW6.posx.toNat (by decide) gW6.posy.toNat (by decide)).mpr ⟨rfl, rfl⟩

/-! ### C9: walls are never overwritten -/

theorem step_wall (N : ℕ) (g : Game) (a : ℤ × ℤ)
    (hw : g.map g.posx.toNat g.posy.toNat = BLOCK_TYPE_WALL →
      g.position_type = BLOCK_TYPE_WALL) :
    ∀ x y, g.map x y = BLOCK_TYPE_WALL → (g.step N a).map x y = BLOCK_TYPE_WALL := by
  refine step_cases N g a
    (fun g' => ∀ x y, g.map x y = BLOCK_TYPE_WALL → g'.map x y = BLOCK_TYPE_WALL)
    ?_ ?_ ?_ ?_ ?_ ?_
  · intro _ x y hxy
    exact hxy
  · intro hoob hmn x y hxy
    rw [moveInto_map_pointwise]
    by_cases h1 : x = (g.posx + a.1).toNat ∧ y = (g.posy + a.2).toNat
    · exfalso
      rw [h1.1, h1.2] at hxy
      rw [hxy] at hmn
      unfold BLOCK_TYPE_WALL BLOCK_TYPE_GROUND BLOCK_TYPE_AIM at hmn
      omega
    · rw [if_neg h1]
      by_cases h2 : x = g.posx.toNat ∧ y = g.posy.toNat
      · rw [if_pos h2]
        apply hw
        rw [← h2.1, ← h2.2]
        exact hxy
      · rw [if_neg h2]
        exact hxy
  · intro _ _ _ _ _ x y hxy
    exact hxy
  · intro _ _ _ x y hxy
    exact hxy
  · intro _ _ _ _ _ x y hxy
    exact hxy
  · intro hoob hmn hoob2 hm2 x y hxy
    by_cases h1 : x = (g.posx + a.1 + a.1).toNat ∧ y = (g.posy + a.2 + a.2).toNat
    · exfalso
      rw [h1.1, h1.2] at hxy
      rw [hxy] at hm2
      unfold BLOCK_TYPE_WALL BLOCK_TYPE_GROUND BLOCK_TYPE_AIM at hm2
      omega
    · by_cases h2 : x = (g.posx + a.1).toNat ∧ y = (g.posy + a.2).toNat
      · exfalso
        rw [h2.1, h2.2] at hxy
        rw [hxy] at hmn
        unfold BLOCK_TYPE_WALL BLOCK_TYPE_BOX BLOCK_TYPE_BOX_AIM at hmn
        omega
      · by_cases h3 : x = g.posx.toNat ∧ y = g.posy.toNat
        · rw [h3.1, h3.2, pushInto_map_pos _ _ _ _ _ _
            (fun hc => h1 ⟨h3.1.trans hc.1, h3.2.trans hc.2⟩)
            (fun hc => h2 ⟨h3.1.trans hc.1, h3.2.trans hc.2⟩)]
          apply hw
          rw [← h3.1, ← h3.2]
          exact hxy
        · rw [pushInto_map_other _ _ _ _ _ _ _ _ h1 h2 h3]
          exact hxy

/-- An adversarial (unreachable) state: the cell at the player's own
Position holds a Wall while the under-tile is Ground, and a Ground cell
lies to the right. -/
def gC9 : Game :=
  { Game.default with
    status := GameStatus.Playing
    action := some Direction.right
    map := fun a b =>
      if a = 0 ∧ b = 0 then BLOCK_TYPE_WALL
      else if a = 1 ∧ b = 0 then BLOCK_TYPE_GROUND
      else BLOCK_TYPE_BLANK }

/-- Counterexample to C9 as stated over every state: in the adversarial
state `gC9` the Wall at (0,0) — which is the player's own cell — is
overwritten with the remembered under-tile by the move. -/
theorem C9_counterexample :
    gC9.map 0 0 = BLOCK_TYPE_WALL ∧
    (Game.advance 4 gC9).map 0 0 = BLOCK_TYPE_GROUND := by
  decide

/-- C9 as amended: in every reachable state (where the cell at Position
holds the player tile, never a Wall), every grid cell holding Wall
before `advance` still holds Wall after it — no move or push ever
overwrites a Wall cell. -/
theorem C9_amended_wall_preserved (N : ℕ) (g : Game) (hr : Reachable N g) :
    ∀ x y, g.map x y = BLOCK_TYPE_WALL →
      (Game.advance N g).map x y = BLOCK_TYPE_WALL := by
  by_cases hs : g.status = GameStatus.Playing
  · obtain ⟨hpt, hplay⟩ := reachable_inv N g hr
    obtain ⟨h1, h2, h3, h4, huniq⟩ := hplay hs
    have hw : g.map g.posx.toNat g.posy.toNat = BLOCK_TYPE_WALL →
        g.position_type = BLOCK_TYPE_WALL := by
      intro hcontra
      have hp := (huniq g.posx.toNat (by omega) g.posy.toNat (by omega)).mpr ⟨rfl, rfl⟩
      rw [hcontra] at hp
      exact absurd hp (by decide)
    rw [advance_playing N g hs]
    cases ha : g.action with
    | none =>
      intro x y hxy
      exact hxy
    | some d =>
      intro x y hxy
      exact step_wall N g (dirVec d) hw x y hxy
  · rw [advance_not_playing N g hs]
    intro x y hxy
    exact hxy

/-- A well-formed level with a Wall at (0,0) and the player at (1,1). -/
def lvlW9 : MapAsset :=
  { value := fun a b =>
      if a = 0 ∧ b = 0 then BLOCK_TYPE_WALL
      else if a = 1 ∧ b = 1 then BLOCK_TYPE_PLAYER_DOWN
      else BLOCK_TYPE_GROUND
    position := (1, 1) }

/-- A concrete reachable state containing a Wall, with a queued
action. -/
def gW9 : Game := queueAction (initializeGame Game.default lvlW9) Direction.right

/-- Witness for C9 (amended): the Wall at (0,0) of the concrete
reachable state survives the advance. -/
theorem C9_amended_wall_preserved_witness :
    (Game.advance 4 gW9).map 0 0 = BLOCK_TYPE_WALL :=
  C9_amended_wall_preserved 4 gW9
    (Reachable.queue Direction.right (Reachable.init Reachable.base rfl (by decide)))
    0 0 rfl

/-! ### C1: the push rule -/

/-- C1: when the movement rule of `advance` (`Game::step`) consumes a
direction `d` and the (in-bounds, per the data model) cell at
Position + d holds Box or Box-on-target, then with
next2 = Position + 2d: if next2 is out of bounds, or the cell at next2
holds anything other than Ground or Target, the entire state is
unchanged; otherwise the push succeeds — the old player cell reverts to
the remembered under-tile, the new under-tile is Ground if the pushed
cell was Box and Target (Aim) if it was Box-on-target, the cell at
Position + d becomes the directional player tile for `d`, the cell at
next2 becomes Box if it was Ground and Box-on-target if it was Target,
the Position becomes Position + d, the dirty flag is set, every other
cell and the status, level and pending action are unchanged. -/
theorem C1_push_rule (N : ℕ) (g : Game) (dir : Direction) (nx ny n2x n2y : ℤ)
    (hnx : nx = g.posx + (dirVec dir).1) (hny : ny = g.posy + (dirVec dir).2)
    (hn2x : n2x = nx + (dirVec dir).1) (hn2y : n2y = ny + (dirVec dir).2)
    (hpos : 0 ≤ g.posx ∧ g.posx < (N : ℤ) ∧ 0 ≤ g.posy ∧ g.posy < (N : ℤ))
    (hnb : oob N nx ny = false)
    (hbox : g.map nx.toNat ny.toNat = BLOCK_TYPE_BOX ∨
      g.map nx.toNat ny.toNat = BLOCK_TYPE_BOX_AIM) :
    ((oob N n2x n2y = true ∨
        (g.map n2x.toNat n2y.toNat ≠ BLOCK_TYPE_GROUND ∧
          g.map n2x.toNat n2y.toNat ≠ BLOCK_TYPE_AIM)) →
      g.step N (dirVec dir) = g) ∧
    (oob N n2x n2y = false →
      (g.map n2x.toNat n2y.toNat = BLOCK_TYPE_GROUND ∨
        g.map n2x.toNat n2y.toNat = BLOCK_TYPE_AIM) →
      ((g.step N (dirVec dir)).posx = nx ∧ (g.step N (dirVec dir)).posy = ny) ∧
      (g.step N (dirVec dir)).update = true ∧
      (g.step N (dirVec dir)).status = g.status ∧
      (g.step N (dirVec dir)).level = g.level ∧
      (g.step N (dirVec dir)).action = g.action ∧
      (g.step N (dirVec dir)).position_type =
        (if g.map nx.toNat ny.toNat = BLOCK_TYPE_BOX then BLOCK_TYPE_GROUND
         else BLOCK_TYPE_AIM) ∧
      (g.step N (dirVec dir)).map g.posx.toNat g.posy.toNat = g.position_type ∧
      (g.step N (dirVec dir)).map nx.toNat ny.toNat = getPlayerType (dirVec dir) ∧
      (g.step N (dirVec dir)).map n2x.toNat n2y.toNat =
        (if g.map n2x.toNat n2y.toNat = BLOCK_TYPE_GROUND then BLOCK_TYPE_BOX
         else BLOCK_TYPE_BOX_AIM) ∧
      (∀ x y, ¬(x = g.posx.toNat ∧ y = g.posy.toNat) →
        ¬(x = nx.toNat ∧ y = ny.toNat) →
        ¬(x = n2x.toNat ∧ y = n2y.toNat) →
        (g.step N (dirVec dir)).map x y = g.map x y)) := by
  subst hnx hny hn2x hn2y
  constructor
  · rintro (h | h)
    · exact step_push_oob N g (dirVec dir) hnb hbox h
    · cases h3 : oob N (g.posx + (dirVec dir).1 + (dirVec dir).1)
        (g.posy + (dirVec dir).2 + (dirVec dir).2) with
      | true => exact step_push_oob N g (dirVec dir) hnb hbox h3
      | false => exact step_push_blocked N g (dirVec dir) hnb hbox h3 h
  · intro hoob2 hm2
    have habs : ((dirVec dir).1 = 1 ∧ (dirVec dir).2 = 0) ∨
        ((dirVec dir).1 = -1 ∧ (dirVec dir).2 = 0) ∨
        ((dirVec dir).1 = 0 ∧ (dirVec dir).2 = 1) ∨
        ((dirVec dir).1 = 0 ∧ (dirVec dir).2 = -1) := by
      cases dir <;> simp [dirVec]
    have hN := (oob_false_iff N _ _).mp hnb
    have hN2 := (oob_false_iff N _ _).mp hoob2
    have hn_p : ¬((g.posx + (dirVec dir).1).toNat = g.posx.toNat ∧
        (g.posy + (dirVec dir).2).toNat = g.posy.toNat) := by omega
    have hn2_n : ¬((g.posx + (dirVec dir).1 + (dirVec dir).1).toNat =
          (g.posx + (dirVec dir).1).toNat ∧
        (g.posy + (dirVec dir).2 + (dirVec dir).2).toNat =
          (g.posy + (dirVec dir).2).toNat) := by omega
    have hn2_p : ¬((g.posx + (dirVec dir).1 + (dirVec dir).1).toNat = g.posx.toNat ∧
        (g.posy + (dirVec dir).2 + (dirVec dir).2).toNat = g.posy.toNat) := by omega
    rw [step_push N g (dirVec dir) hnb hbox hoob2 hm2]
    refine ⟨⟨rfl, rfl⟩, rfl, rfl, rfl, rfl, ?_, ?_, ?_, ?_, ?_⟩
    · exact pushInto_new_pt _ _ _ _ _ _ hn_p
    · exact pushInto_map_pos _ _ _ _ _ _
        (fun hc => hn2_p ⟨hc.1.symm, hc.2.symm⟩)
        (fun hc => hn_p ⟨hc.1.symm, hc.2.symm⟩)
    · exact pushInto_map_next _ _ _ _ _ _ (fun hc => hn2_n ⟨hc.1.symm, hc.2.symm⟩)
    · exact pushInto_map_n2 _ _ _ _ _ _ hn2_n hn2_p
    · intro x y hxp hxn hxn2
      exact pushInto_map_other _ _ _ _ _ _ _ _ hxn2 hxn hxp

/-- The spec's push scenario on a 4-grid: player at (1,1) facing down,
Box at (2,1), Ground at (3,1), Wall elsewhere. -/
def gC1 : Game :=
  { Game.default with
    status := GameStatus.Playing
    posx := 1
    posy := 1
    map := fun a b =>
      if a = 1 ∧ b = 1 then BLOCK_TYPE_PLAYER_DOWN
      else if a = 2 ∧ b = 1 then BLOCK_TYPE_BOX
      else if a = 3 ∧ b = 1 then BLOCK_TYPE_GROUND
      else BLOCK_TYPE_WALL }

/-- Witness for C1: pushing Right in the scenario state moves the
player to (2,1) drawing the facing-left tile, relabels (3,1) to Box,
reverts (1,1) to Ground and sets the dirty flag. -/
theorem C1_push_rule_witness :
    (Game.step 4 gC1 (dirVec Direction.right)).map 2 1 = getPlayerType (dirVec Direction.right) ∧
    (Game.step 4 gC1 (dirVec Direction.right)).map 3 1 = BLOCK_TYPE_BOX ∧
    (Game.step 4 gC1 (dirVec Direction.right)).map 1 1 = BLOCK_TYPE_GROUND ∧
    (Game.step 4 gC1 (dirVec Direction.right)).posx = 2 ∧
    (Game.step 4 gC1 (dirVec Direction.right)).update = true := by
  have h := (C1_push_rule 4 gC1 Direction.right 2 1 3 1 (by decide) (by decide)
    (by decide) (by decide) (by decide) (by decide) (Or.inl (by decide))).2
    (by decide) (Or.inl (by decide))
  exact ⟨h.2.2.2.2.2.2.2.1, h.2.2.2.2.2.2.2.2.1, h.2.2.2.2.2.2.1, h.1.1, h.2.1⟩

end Sokoban
